import Mathlib

/-!
Verification of the IntelliClaim backend (backend/chatgpt_app.py).

The Python code is shallowly embedded: strings are `List Char`, Python
runtime values flowing through the pipeline are `PyVal`, fallible Python
code returns `Except PyErr`, and calls to the external LLM service and the
vector store are modelled by explicitly quantified behaviours.  Regular
expressions from the source are hand-compiled into equivalent scanners
(the original pattern is quoted in a comment at each one).
-/

set_option maxRecDepth 10000

namespace IntelliClaim

/-- Characters removed by Python's `str.strip()`. -/
def isPyWs (c : Char) : Bool :=
  c = ' ' || c = '\t' || c = '\n' || c = '\r' || c = '\x0b' || c = '\x0c'

/-- Python `str.strip()` on a character list. -/
def stripL (l : List Char) : List Char :=
  ((l.dropWhile isPyWs).reverse.dropWhile isPyWs).reverse

/-- Python `str.lower()` (ASCII case folding suffices for this code base). -/
def lowerL (l : List Char) : List Char := l.map Char.toLower

/-- Python substring test `needle in hay`. -/
def isSubL (needle : List Char) : List Char → Bool
  | [] => needle.isEmpty
  | c :: t => needle.isPrefixOf (c :: t) || isSubL needle t

/-- Index of the first occurrence of `needle` in `hay` (Python `str.find`, with
`none` for -1). -/
def findSubIdx (needle : List Char) : List Char → Option Nat
  | [] => if needle.isEmpty then some 0 else none
  | c :: t =>
    if needle.isPrefixOf (c :: t) then some 0 else (findSubIdx needle t).map (· + 1)

/-- Consume the literal `lit` at the head of `l`, if present. -/
def dropLit (lit l : List Char) : Option (List Char) :=
  if lit.isPrefixOf l then some (l.drop lit.length) else none

/-- Suffix of `l` starting at the first occurrence of the character `c`. -/
def suffixFrom (c : Char) : List Char → Option (List Char)
  | [] => none
  | x :: t => if x = c then some (x :: t) else suffixFrom c t

/-- Longest prefix of `l` ending at the last occurrence of the character `c`. -/
def takeToLast (c : Char) (l : List Char) : Option (List Char) :=
  match l.reverse.dropWhile (fun x => x != c) with
  | [] => none
  | r => some r.reverse

/-- Drop one leading "```json" marker (7 characters) if present. -/
def dropJsonFence (t : List Char) : List Char :=
  if ("```json".data).isPrefixOf t then t.drop 7 else t

/-- Drop one trailing "```" marker (3 characters) if present. -/
def dropTicksEnd (t : List Char) : List Char :=
  if ("```".data).isSuffixOf t then t.take (t.length - 3) else t

/-- Markdown-fence stripping phase of `clean_json_response`: strip, drop a
leading "```json" and a trailing "```" once each, then strip again. -/
def fenceStrip (l : List Char) : List Char :=
  stripL (dropTicksEnd (dropJsonFence (stripL l)))

/-- Brace-extraction phase of `clean_json_response`: locate the first
opening brace (re.search of an opening brace); from there, the greedy
DOTALL span up to the last closing brace; if either is missing, the whole
text is returned. -/
def braceExtract (t : List Char) : List Char :=
  match suffixFrom '\x7b' t with
  | none => t
  | some js =>
    match takeToLast '\x7d' js with
    | none => t
    | some span => span

/-- Embedding of `clean_json_response` (chatgpt_app.py lines 300-323). -/
def cleanJsonL (l : List Char) : List Char :=
  if stripL l = [] then l else braceExtract (fenceStrip l)

/-- String-level wrapper of `cleanJsonL`. -/
def clean_json_response (s : String) : String := ⟨cleanJsonL s.data⟩

/-- Token lists of `DecisionReasoningAgent._normalize_decision`. -/
def APPROVED_WORDS : List (List Char) :=
  ["approved".data, "approve".data, "eligible".data, "accept".data]

/-- Rejection tokens of `_normalize_decision`. -/
def REJECTED_WORDS : List (List Char) :=
  ["rejected".data, "reject".data, "denied".data, "deny".data, "not eligible".data]

/-- Pending tokens of `_normalize_decision`. -/
def PENDING_WORDS : List (List Char) :=
  ["pending".data, "further".data, "investigation".data, "information".data,
   "undecided".data]

/-- Embedding of `DecisionReasoningAgent._normalize_decision`
(chatgpt_app.py lines 746-761) on an actual string argument. -/
def normalize_decision (s : List Char) : List Char :=
  if s.isEmpty then "PENDING".data
  else if APPROVED_WORDS.any (fun w => isSubL w (stripL (lowerL s))) then
    "APPROVED".data
  else if REJECTED_WORDS.any (fun w => isSubL w (stripL (lowerL s))) then
    "REJECTED".data
  else if PENDING_WORDS.any (fun w => isSubL w (stripL (lowerL s))) then
    "PENDING".data
  else "PENDING".data

/-- Python runtime values that flow through the pipeline (the JSON fragment
of Python's object model).  Numbers are modelled as integers: integral
numerals are the only numeric shape this code produces itself, and a
fractional numeral in a model reply is treated by the embedded parser as a
parse error, which the pipeline handles exactly like any other
`json.JSONDecodeError`. -/
inductive PyVal where
  | none
  | bool (b : Bool)
  | int (n : Int)
  | str (s : List Char)
  | list (l : List PyVal)
  | dict (l : List (List Char × PyVal))

/-- Error message of a raised Python exception (`str(e)`). -/
abbrev PyErr := List Char

/-- Python truthiness of a pipeline value. -/
def truthy : PyVal → Bool
  | .none => false
  | .bool b => b
  | .int n => n != 0
  | .str s => !s.isEmpty
  | .list l => !l.isEmpty
  | .dict d => !d.isEmpty

/-- Lookup in a Python dict represented as an association list. -/
def dlookup (d : List (List Char × PyVal)) (k : List Char) : Option PyVal :=
  match d with
  | [] => Option.none
  | (k1, v) :: t => if k1 = k then some v else dlookup t k

/-- Python `d[k] = v`: replace in place, append if the key is new. -/
def setKey (d : List (List Char × PyVal)) (k : List Char) (v : PyVal) :
    List (List Char × PyVal) :=
  match d with
  | [] => [(k, v)]
  | (k1, v1) :: t => if k1 = k then (k1, v) :: t else (k1, v1) :: setKey t k v

/-- Python `k in d` on a dict. -/
def hasKey (d : List (List Char × PyVal)) (k : List Char) : Bool :=
  (dlookup d k).isSome

/-- Python `d.get(k, dflt)`. -/
def dget (d : List (List Char × PyVal)) (k : List Char) (dflt : PyVal) : PyVal :=
  (dlookup d k).getD dflt

/-- Decimal numeral to a natural number (all callers have digit-only input). -/
def natOfDigits (l : List Char) : Nat :=
  l.foldl (fun a c => 10 * a + (c.toNat - 48)) 0

/-- Python `str()` of a pipeline value.  The pipeline applies it only to
scalars (f-string interpolation of ints, and `_process_amount_field`'s
comparison against the literal "pending"); the container rendering is
abbreviated, which no reachable comparison can observe. -/
def pyStrOfVal : PyVal → List Char
  | .none => "None".data
  | .bool b => if b then "True".data else "False".data
  | .int n => (toString n).data
  | .str s => s
  | .list _ => "[...]".data
  | .dict _ => "\x7b...\x7d".data

/-- Python `int(x)` for the shapes reachable here: ints pass through, bools
become 0 or 1, strings parse as an optionally signed decimal numeral,
anything else raises `TypeError`. -/
def parseIntStr (s : List Char) : Except PyErr Int :=
  let t := stripL s
  let p : Bool × List Char :=
    match t with
    | '-' :: r => (true, r)
    | '+' :: r => (false, r)
    | r => (false, r)
  if !p.2.isEmpty && p.2.all Char.isDigit then
    .ok ((if p.1 then -1 else 1) * (natOfDigits p.2 : Int))
  else .error ("invalid literal for int() with base 10".data)

/-- Conversion applied by `int(decision.get("confidence_score", 50))`. -/
def pyInt : PyVal → Except PyErr Int
  | .int n => .ok n
  | .bool b => .ok (if b then 1 else 0)
  | .str s => parseIntStr s
  | _ => .error ("int() argument must be a string or a number".data)

/-- Whitespace skipped between JSON tokens. -/
def jsonSkipWs (l : List Char) : List Char :=
  l.dropWhile (fun c => c = ' ' || c = '\t' || c = '\n' || c = '\r')

/-- Value of a hexadecimal digit. -/
def hexVal (c : Char) : Nat :=
  if c.isDigit then c.toNat - 48
  else if 'a' ≤ c && c ≤ 'f' then c.toNat - 87
  else c.toNat - 55

/-- JSON string body parser: `l` is the text after the opening quote;
returns the decoded content and the rest after the closing quote. -/
def parseJsonStr : Nat → List Char → Except PyErr (List Char × List Char)
  | 0, _ => .error ("out of fuel".data)
  | _, [] => .error ("Unterminated string starting at".data)
  | fuel+1, c :: t =>
    if c = '"' then .ok ([], t)
    else if c = '\\' then
      match t with
      | [] => .error ("Unterminated string starting at".data)
      | e :: t2 =>
        let dec : Except PyErr (Char × List Char) :=
          if e = '"' then .ok ('"', t2)
          else if e = '\\' then .ok ('\\', t2)
          else if e = '/' then .ok ('/', t2)
          else if e = 'b' then .ok ('\x08', t2)
          else if e = 'f' then .ok ('\x0c', t2)
          else if e = 'n' then .ok ('\n', t2)
          else if e = 'r' then .ok ('\r', t2)
          else if e = 't' then .ok ('\t', t2)
          else if e = 'u' then
            match t2 with
            | h1 :: h2 :: h3 :: h4 :: t3 =>
              if [h1, h2, h3, h4].all (fun h => h.isDigit || ('a' ≤ h && h ≤ 'f') || ('A' ≤ h && h ≤ 'F')) then
                .ok (Char.ofNat (((hexVal h1 * 16 + hexVal h2) * 16 + hexVal h3) * 16 + hexVal h4), t3)
              else .error ("Invalid \\uXXXX escape".data)
            | _ => .error ("Invalid \\uXXXX escape".data)
          else .error ("Invalid \\escape".data)
        match dec with
        | .error msg => .error msg
        | .ok (ch, t3) =>
          match parseJsonStr fuel t3 with
          | .error msg => .error msg
          | .ok (s, r) => .ok (ch :: s, r)
    else
      match parseJsonStr fuel t with
      | .error msg => .error msg
      | .ok (s, r) => .ok (c :: s, r)

/-- JSON integral numeral parser (fractional or exponent numerals are
reported as errors; see `PyVal`). -/
def parseJsonNum (l : List Char) : Except PyErr (PyVal × List Char) :=
  let p : Bool × List Char :=
    match l with
    | '-' :: r => (true, r)
    | r => (false, r)
  let ds := p.2.takeWhile Char.isDigit
  if ds.isEmpty then .error ("Expecting value".data)
  else if ds.length > 1 && ds.headD ' ' = '0' then .error ("Expecting value".data)
  else
    let rest := p.2.drop ds.length
    match rest with
    | c :: _ =>
      if c = '.' || c = 'e' || c = 'E' then
        .error ("fractional numerals are not modelled".data)
      else .ok (.int ((if p.1 then -1 else 1) * (natOfDigits ds : Int)), rest)
    | [] => .ok (.int ((if p.1 then -1 else 1) * (natOfDigits ds : Int)), rest)

mutual

/-- JSON value parser. -/
def parseJsonVal : Nat → List Char → Except PyErr (PyVal × List Char)
  | 0, _ => .error ("out of fuel".data)
  | fuel+1, l =>
    match jsonSkipWs l with
    | [] => .error ("Expecting value".data)
    | c :: t =>
      if c = 'n' then
        match dropLit "ull".data t with
        | some r => .ok (.none, r)
        | Option.none => .error ("Expecting value".data)
      else if c = 't' then
        match dropLit "rue".data t with
        | some r => .ok (.bool true, r)
        | Option.none => .error ("Expecting value".data)
      else if c = 'f' then
        match dropLit "alse".data t with
        | some r => .ok (.bool false, r)
        | Option.none => .error ("Expecting value".data)
      else if c = '"' then
        match parseJsonStr fuel t with
        | .error msg => .error msg
        | .ok (s, r) => .ok (.str s, r)
      else if c = '[' then parseJsonArr fuel t
      else if c = '\x7b' then parseJsonObj fuel t
      else parseJsonNum (c :: t)

/-- JSON array parser (after the opening bracket). -/
def parseJsonArr : Nat → List Char → Except PyErr (PyVal × List Char)
  | 0, _ => .error ("out of fuel".data)
  | fuel+1, l =>
    match jsonSkipWs l with
    | ']' :: r => .ok (.list [], r)
    | l1 => parseJsonArrItems fuel l1 []

/-- JSON array item loop. -/
def parseJsonArrItems : Nat → List Char → List PyVal → Except PyErr (PyVal × List Char)
  | 0, _, _ => .error ("out of fuel".data)
  | fuel+1, l, acc =>
    match parseJsonVal fuel l with
    | .error msg => .error msg
    | .ok (v, r) =>
      match jsonSkipWs r with
      | ',' :: r2 => parseJsonArrItems fuel r2 (acc ++ [v])
      | ']' :: r2 => .ok (.list (acc ++ [v]), r2)
      | _ => .error ("Expecting value delimiter".data)

/-- JSON object parser (after the opening brace). -/
def parseJsonObj : Nat → List Char → Except PyErr (PyVal × List Char)
  | 0, _ => .error ("out of fuel".data)
  | fuel+1, l =>
    match jsonSkipWs l with
    | '\x7d' :: r => .ok (.dict [], r)
    | l1 => parseJsonObjItems fuel l1 []

/-- JSON object member loop (duplicate keys keep the first position and the
last value, as in Python). -/
def parseJsonObjItems : Nat → List Char → List (List Char × PyVal) →
    Except PyErr (PyVal × List Char)
  | 0, _, _ => .error ("out of fuel".data)
  | fuel+1, l, acc =>
    match jsonSkipWs l with
    | '"' :: t =>
      match parseJsonStr fuel t with
      | .error msg => .error msg
      | .ok (k, r) =>
        match jsonSkipWs r with
        | ':' :: r2 =>
          match parseJsonVal fuel r2 with
          | .error msg => .error msg
          | .ok (v, r3) =>
            match jsonSkipWs r3 with
            | ',' :: r4 => parseJsonObjItems fuel r4 (setKey acc k v)
            | '\x7d' :: r4 => .ok (.dict (setKey acc k v), r4)
            | _ => .error ("Expecting delimiter".data)
        | _ => .error ("Expecting colon delimiter".data)
    | _ => .error ("Expecting property name".data)

end

/-- Embedding of `json.loads`. -/
def json_loads (s : List Char) : Except PyErr PyVal :=
  match parseJsonVal (2 * s.length + 8) s with
  | .error msg => .error msg
  | .ok (v, rest) =>
    if (jsonSkipWs rest).isEmpty then .ok v else .error ("Extra data".data)

/-- Character class `[\s-]` of the fallback-extraction regexes. -/
def isSpaceDash (c : Char) : Bool := isPyWs c || c = '-'

/-- Greedy `[\s-]*`. -/
def dropSpaceDash (l : List Char) : List Char := l.dropWhile isSpaceDash

/-- Greedy nonempty digit run (`\d+`). -/
def takeDigits1 (l : List Char) : Option (List Char × List Char) :=
  let ds := l.takeWhile Char.isDigit
  if ds.isEmpty then Option.none else some (ds, l.drop ds.length)

/-- Leftmost-match search: try the position matcher `f` on every suffix of
the text, left to right (re.search). -/
def scanFirst {α : Type} (f : List Char → Option α) : List Char → Option α
  | [] => f []
  | c :: t =>
    match f (c :: t) with
    | some a => some a
    | Option.none => scanFirst f t

/-- Leftmost-match search also reporting the start position (m.start()). -/
def scanFirstIdx {α : Type} (f : List Char → Option α) : List Char → Option (Nat × α)
  | [] => (f []).map (fun a => (0, a))
  | c :: t =>
    match f (c :: t) with
    | some a => some (0, a)
    | Option.none => (scanFirstIdx f t).map (fun p => (p.1 + 1, p.2))

/-- Position matcher for the age pattern: digits, `[\s-]*`, "year" or "yr",
an optional "s", `[\s-]*`, "old".  The pattern is deterministic (no
alternative needs backtracking on these alphabets), so a committed scan is
equivalent to the regex. -/
def matchAgeAt (l : List Char) : Option Nat := do
  let p ← takeDigits1 l
  let r2 := dropSpaceDash p.2
  let r3 ← dropLit "year".data r2 <|> dropLit "yr".data r2
  let r4 := match r3 with
    | 's' :: t => t
    | t => t
  let _ ← dropLit "old".data (dropSpaceDash r4)
  pure (natOfDigits p.1)

/-- Shared head of the three policy-duration patterns: digits, `[\s-]*`,
"month"/"year"/"yr", optional "s"; returns the digit group and the rest. -/
def matchDurUnitAt (l : List Char) : Option (List Char × List Char) := do
  let p ← takeDigits1 l
  let r2 := dropSpaceDash p.2
  let r3 ← dropLit "month".data r2 <|> dropLit "year".data r2 <|> dropLit "yr".data r2
  let r4 := match r3 with
    | 's' :: t => t
    | t => t
  pure (p.1, r4)

/-- Position matcher for the duration pattern ending `[\s-]*old[\s-]*policy`. -/
def matchDurOldPolicyAt (l : List Char) : Option Nat := do
  let p ← matchDurUnitAt l
  let r2 ← dropLit "old".data (dropSpaceDash p.2)
  let _ ← dropLit "policy".data (dropSpaceDash r2)
  pure (natOfDigits p.1)

/-- Position matcher for the duration pattern ending `[\s-]*policy`. -/
def matchDurPolicyAt (l : List Char) : Option Nat := do
  let p ← matchDurUnitAt l
  let _ ← dropLit "policy".data (dropSpaceDash p.2)
  pure (natOfDigits p.1)

/-- Position matcher for the bare duration pattern. -/
def matchDurAt (l : List Char) : Option Nat :=
  (matchDurUnitAt l).map (fun p => natOfDigits p.1)

/-- Position matcher for the look-back pattern "year[\s-]*old|years[\s-]*old". -/
def matchYearOldAt (l : List Char) : Option Unit :=
  (do
    let r ← dropLit "year".data l
    let _ ← dropLit "old".data (dropSpaceDash r)
    pure ()) <|>
  (do
    let r ← dropLit "years".data l
    let _ ← dropLit "old".data (dropSpaceDash r)
    pure ())

/-- Location keywords of `_extract_entities_fallback`. -/
def LOCATIONS : List (List Char) :=
  ["pune".data, "mumbai".data, "delhi".data, "chennai".data, "bangalore".data,
   "hyderabad".data, "kolkata".data]

/-- Procedure keywords of `_extract_entities_fallback`. -/
def PROCEDURES : List (List Char) :=
  ["surgery".data, "treatment".data, "operation".data, "dental".data,
   "cataract".data, "heart".data, "knee".data]

/-- Python `str.title()` restricted to the single lowercase words this code
applies it to. -/
def titleWord : List Char → List Char
  | [] => []
  | c :: t => c.toUpper :: t

/-- Gender branch of `_extract_entities_fallback` (lines 350-355). -/
def extractGender (ql : List Char) : Option (List Char) :=
  if isSubL "male".data ql || isSubL "m".data ql then some ("male".data)
  else if isSubL "female".data ql || isSubL "woman".data ql then some ("female".data)
  else Option.none

/-- Age branch of `_extract_entities_fallback`. -/
def extractAge (ql : List Char) : Option Nat := scanFirst matchAgeAt ql

/-- Location branch of `_extract_entities_fallback`. -/
def extractLocation (ql : List Char) : Option (List Char) :=
  (LOCATIONS.find? (fun loc => isSubL loc ql)).map titleWord

/-- Procedure branch of `_extract_entities_fallback`. -/
def extractProcedure (ql : List Char) : Option (List Char) :=
  PROCEDURES.find? (fun p => isSubL p ql)

/-- Policy-duration branch of `_extract_entities_fallback` (three patterns
in priority order, with the "year(s) old" look-back guard on the last). -/
def extractPolicyDuration (ql : List Char) : Nat :=
  match scanFirst matchDurOldPolicyAt ql with
  | some n => n
  | Option.none =>
    match scanFirst matchDurPolicyAt ql with
    | some n => n
    | Option.none =>
      match scanFirstIdx matchDurAt ql with
      | some p =>
        if (scanFirst matchYearOldAt (ql.take (p.1 + 20))).isSome then 1 else p.2
      | Option.none => 1

/-- Optional number as a Python value. -/
def optNat : Option Nat → PyVal
  | some n => .int (n : Int)
  | Option.none => .none

/-- Optional string as a Python value. -/
def optStr : Option (List Char) → PyVal
  | some s => .str s
  | Option.none => .none

/-- Embedding of `QueryUnderstandingAgent._extract_entities_fallback`
(chatgpt_app.py lines 346-389). -/
def extract_entities_fallback (query : List Char) : PyVal :=
  let ql := lowerL query
  .dict [("age".data, optNat (extractAge ql)),
         ("gender".data, optStr (extractGender ql)),
         ("location".data, optStr (extractLocation ql)),
         ("procedure".data, optStr (extractProcedure ql)),
         ("policy_duration_months".data, .int (extractPolicyDuration ql : Int)),
         ("intent".data, .str ("claim_eligibility".data))]

/-- Word characters of the `\w+` token pattern (ASCII classes). -/
def isWordChar (c : Char) : Bool := c.isAlphanum || c = '_'

/-- Maximal word-character runs of a text (re.findall of `\w+`). -/
def wordRuns (l : List Char) : List (List Char) :=
  go l []
where
  /-- Accumulating helper, current run reversed in `cur`. -/
  go : List Char → List Char → List (List Char)
  | [], cur => if cur.isEmpty then [] else [cur.reverse]
  | c :: t, cur =>
    if isWordChar c then go t (c :: cur)
    else if cur.isEmpty then go t [] else cur.reverse :: go t []

/-- Configured excerpt window (chatgpt_app.py line 65). -/
def PER_CLAUSE_WINDOW : Nat := 400

/-- Global reasoning-context character budget (chatgpt_app.py line 64). -/
def MAX_CONTEXT_CHARS : Nat := 1500

/-- Embedding of `build_windowed_context` (chatgpt_app.py lines 91-103). -/
def build_windowed_context (query chunk : List Char) (window : Nat) : List Char :=
  match ((wordRuns (lowerL query)).filter (fun w => w.length ≥ 4)).findSome?
      (fun term => findSubIdx term (lowerL chunk)) with
  | Option.none => chunk.take (min chunk.length window)
  | some idx =>
    (chunk.drop (idx - window / 2)).take
      (min chunk.length ((idx - window / 2) + window) - (idx - window / 2))

/-- Clause keyword biasing map (chatgpt_app.py lines 68-80).  The uppercase
entries are kept verbatim: like the source, they are compared against
lower-cased text and therefore never match. -/
def CLAUSE_KEYWORDS : List (List Char × List (List Char)) :=
  [("waiting period".data, ["waiting period".data, "cooling period".data, "initial waiting".data]),
   ("pre-existing".data, ["pre-existing".data, "PED".data]),
   ("maternity".data, ["maternity".data, "pregnancy".data, "childbirth".data]),
   ("cataract".data, ["cataract".data]),
   ("organ donor".data, ["organ donor".data, "donor expenses".data]),
   ("no claim".data, ["no claim discount".data, "NCD".data]),
   ("preventive".data, ["preventive".data, "health check".data]),
   ("hospital".data, ["hospital".data, "inpatient".data]),
   ("ayush".data, ["ayush".data, "ayurveda".data, "homeopathy".data, "siddha".data, "unani".data]),
   ("room rent".data, ["room rent".data, "icu charges".data, "sub-limit".data])]

/-- Embedding of `score_clause_bias` (chatgpt_app.py lines 82-89). -/
def score_clause_bias (query text : List Char) : Nat :=
  let ql := lowerL query
  let tl := lowerL text
  CLAUSE_KEYWORDS.foldl
    (fun hits kv =>
      if kv.2.any (fun k => isSubL k ql) then
        hits + (kv.2.filter (fun k => isSubL k tl)).length
      else hits) 0

/-- Retrieved document (langchain `Document`): page content and metadata. -/
structure Doc where
  page_content : List Char
  metadata : List (List Char × PyVal)

/-- String extraction of `str.join`: the first truthy non-string raises
`TypeError`. -/
def toStrList : List PyVal → Except PyErr (List (List Char))
  | [] => .ok []
  | v :: t =>
    match v with
    | PyVal.str s =>
      match toStrList t with
      | .ok rest => .ok (s :: rest)
      | .error e => .error e
    | _ => .error ("sequence item: expected str instance".data)

/-- Python `" ".join(filter(None, vals))`: falsy entries are dropped, a
truthy non-string raises `TypeError`. -/
def joinSearchParts (vals : List PyVal) : Except PyErr (List Char) :=
  match toStrList (vals.filter truthy) with
  | .ok strs => .ok (List.intercalate (" ".data) strs)
  | .error e => .error e

/-- Search string of `SemanticRetrievalAgent.process` (chatgpt_app.py lines
422-429): join the truthy values of procedure, intent, location and the
constant hint "waiting period", strip, and fall back to the original query
when the result is empty. -/
def buildSearchQuery (sq : List (List Char × PyVal)) (original : List Char) :
    Except PyErr (List Char) :=
  match joinSearchParts
    [dget sq ("procedure".data) .none, dget sq ("intent".data) .none,
     dget sq ("location".data) .none, .str ("waiting period".data)] with
  | .error e => .error e
  | .ok joined =>
    if (stripL joined).isEmpty then .ok original else .ok (stripL joined)

/-- Outcome of a single call to the external chat-completion service: the
call raises (timeout, network or HTTP error), or returns the message
content (a `None` content is modelled as the empty string, which the
caller rejects the same way). -/
inductive LLMResult where
  | raises (msg : PyErr)
  | returns (text : List Char)

/-- Primary model of `GPT5Client` (line 232). -/
def PRIMARY_MODEL : List Char := "openai/gpt-5-mini-2025-08-07".data

/-- Fallback models of `GPT5Client`, in configured order (lines 233-238). -/
def FALLBACK_MODELS : List (List Char) :=
  ["openai/gpt-5-2025-08-07".data, "openai/gpt-5-chat-latest".data,
   "openai/gpt-4o-mini".data, "openai/gpt-3.5-turbo".data]

/-- Fallback loop of `GPT5Client.generate_content_async`: each model is
tried once in order, the first content with a nonempty strip is returned;
the second component records the models actually called. -/
def tryFallbackModels (b : Nat → LLMResult) (n : Nat) :
    List (List Char) → Option (List Char) × List (List Char)
  | [] => (Option.none, [])
  | m :: rest =>
    match b n with
    | .returns t =>
      if !(stripL t).isEmpty then (some t, [m])
      else
        let p := tryFallbackModels b (n + 1) rest
        (p.1, m :: p.2)
    | .raises _ =>
      let p := tryFallbackModels b (n + 1) rest
      (p.1, m :: p.2)

/-- Embedding of `GPT5Client.generate_content_async` (chatgpt_app.py lines
245-295): the primary model once, then the fallbacks in order; a `none`
result is the final "All models failed to generate content" exception.
`b k` is the outcome of the k-th completion call; the second component is
the list of models called, in call order. -/
def generate_content_async (b : Nat → LLMResult) :
    Option (List Char) × List (List Char) :=
  match b 0 with
  | .returns t =>
    if !(stripL t).isEmpty then (some t, [PRIMARY_MODEL])
    else
      let p := tryFallbackModels b 1 FALLBACK_MODELS
      (p.1, PRIMARY_MODEL :: p.2)
  | .raises _ =>
    let p := tryFallbackModels b 1 FALLBACK_MODELS
    (p.1, PRIMARY_MODEL :: p.2)

/-- Sentinel answer of the batch Q&A path. -/
def SENTINEL : List Char := "Not specified in the provided context.".data

/-- Python `str.removeprefix`. -/
def removePfxL (pfx l : List Char) : List Char :=
  if pfx.isPrefixOf l then l.drop pfx.length else l

/-- Python `str.removesuffix`. -/
def removeSfxL (sfx l : List Char) : List Char :=
  if sfx.isSuffixOf l then l.take (l.length - sfx.length) else l

/-- Greedy DOTALL bracket span, from the first opening to the last closing
square bracket (the re.search recovery in `generate_answer`). -/
def bracketSpan (t : List Char) : Option (List Char) :=
  match suffixFrom '[' t with
  | Option.none => Option.none
  | some js => takeToLast ']' js

/-- Answer parsing of `generate_answer` (lines 1410-1417): strip the reply,
try `json.loads` after removing a markdown fence, then recover from the
bracketed span, defaulting to the empty list when no span exists; an
unparsable span re-raises out of the handler. -/
def parseBatchAnswers (text : List Char) : Except PyErr PyVal :=
  let t := stripL text
  match json_loads (stripL (removeSfxL ("```".data) (removePfxL ("```json".data) t))) with
  | .ok v => .ok v
  | .error _ =>
    match bracketSpan t with
    | some s => json_loads s
    | Option.none => .ok (.list [])

/-- One attempt of the retry loop of `generate_answer`: a model call,
parse, and length validation against the batch size. -/
def batchAttemptOutcome (b : Nat → LLMResult) (len attempt : Nat) :
    Except PyErr (List PyVal) :=
  match b attempt with
  | .raises msg => .error msg
  | .returns text =>
    match parseBatchAnswers text with
    | .error msg => .error msg
    | .ok v =>
      match v with
      | .list l =>
        if l.length = len then .ok l else .error ("Mismatched answer count".data)
      | _ => .error ("Mismatched answer count".data)

/-- Retry loop of `generate_answer` (lines 1402-1437): up to `fuel`
attempts (batch_max_retries = 3); a failure whose text contains "429"
retries while an attempt remains, any other failure (or the last
attempt's) falls back to one sentinel per question of the batch. -/
def batchRetryLoop (b : Nat → LLMResult) (len : Nat) : Nat → Nat → List PyVal
  | _, 0 => List.replicate len (.str SENTINEL)
  | attempt, fuel+1 =>
    match batchAttemptOutcome b len attempt with
    | .ok l => l
    | .error msg =>
      if isSubL ("429".data) msg && 0 < fuel then batchRetryLoop b len (attempt + 1) fuel
      else List.replicate len (.str SENTINEL)

/-- Answers of one batch (`generate_answer`, lines 1245-1445), including
its retrieval prelude (lines 1256-1379).  The prelude builds the helper
class with `type(...)` from plain functions; Python's descriptor protocol
binds them as methods, so the first per-question call
`retriever.dynamic_k(doc_length)` receives the instance as an extra
positional argument and raises TypeError before any model call, and the
function's only handler catches asyncio.TimeoutError - hence every
nonempty batch raises.  (The regular expressions evaluated before that
call are total, and `override_answers` is computed but never read.)  On
an empty batch the per-question loop never runs and the retry loop
decides the answers. -/
def generate_answer (b : Nat → LLMResult) (questions_batch : List (List Char)) :
    Except PyErr (List PyVal) :=
  match questions_batch with
  | [] => .ok (batchRetryLoop b 0 0 3)
  | _ :: _ =>
    .error ("dynamic_k() takes 1 positional argument but 2 were given".data)

/-- Fuel-driven slicing loop of the batch comprehension; the fuel is the
list length, which always suffices. -/
def chunkFuel (m : Nat) : Nat → List α → List (List α)
  | _, [] => []
  | 0, _ :: _ => []
  | fuel+1, c :: t => (c :: t.take m) :: chunkFuel m fuel (t.drop m)

/-- Consecutive batches of size `m + 1` (the slicing comprehension in the
orchestrator; the source's batch_size is the constant 5). -/
def chunkBy (m : Nat) (l : List α) : List (List α) := chunkFuel m l.length l

/-- Per-batch tasks of the orchestrator: the i-th batch sees the
behaviour `bs i`; the results are concatenated in batch order, and a
raised exception propagates (the `asyncio.gather` with default
`return_exceptions` followed by the flatten). -/
def answerBatches (bs : Nat → Nat → LLMResult) (i : Nat) :
    List (List (List Char)) → Except PyErr (List PyVal)
  | [] => .ok []
  | batch :: rest =>
    match generate_answer (bs i) batch with
    | .error e => .error e
    | .ok l =>
      match answerBatches bs (i + 1) rest with
      | .error e => .error e
      | .ok ls => .ok (l ++ ls)

/-- Embedding of the batch orchestration (lines 1441-1448): batches of 5,
one `generate_answer` task per batch, results flattened in batch order. -/
def answerAll (bs : Nat → Nat → LLMResult) (questions : List (List Char)) :
    Except PyErr (List PyVal) :=
  answerBatches bs 0 (chunkBy 4 questions)

/-- External behaviour of one `process_query` run: `llm n` is the outcome
of the n-th call to `GPT5Client.generate_content_async` (call order:
query understanding, main decision, rules extraction, AI decision), and
`search` the outcome of the one possible `similarity_search` call. -/
structure Behavior where
  llm : Nat → LLMResult
  search : Except PyErr (List Doc)

/-- Mutable query state of the pipeline (the `QueryContext` dataclass).
The write-only `reasoning_chain` field is never read by any consumer and
is not modelled; `confidence_score` on the dataclass is likewise never
read or written by the pipeline. -/
structure QueryContext where
  original_query : List Char
  structured_query : PyVal := .none
  retrieved_docs : Option (List Doc) := Option.none
  decision : PyVal := .none
  explanation : PyVal := .none

/-- Embedding of `QueryUnderstandingAgent.process` (lines 393-414): one
model call; cleaned parsed JSON on success, `_extract_entities_fallback`
on any failure.  (The prompt string only parametrizes the model call,
which the behaviour oracle indexes by call order.) -/
def queryUnderstanding (b : Behavior) (n : Nat) (ctx : QueryContext) :
    Nat × QueryContext :=
  match b.llm n with
  | .raises _ =>
    (n + 1, { ctx with structured_query := extract_entities_fallback ctx.original_query })
  | .returns text =>
    match json_loads (cleanJsonL text) with
    | .ok v => (n + 1, { ctx with structured_query := v })
    | .error _ =>
      (n + 1, { ctx with structured_query := extract_entities_fallback ctx.original_query })

/-- Stable insertion of a document into a descending-by-score list: after
all strictly greater scores, before equal scores seen later. -/
def insertDesc (score : Doc → Nat) (x : Doc) : List Doc → List Doc
  | [] => [x]
  | y :: t => if score x < score y then y :: insertDesc score x t else x :: y :: t

/-- Stable descending sort by score, modelling Python's stable
`sorted(..., reverse=True)`. -/
def sortDesc (score : Doc → Nat) : List Doc → List Doc
  | [] => []
  | x :: t => insertDesc score x (sortDesc score t)

/-- Lookup in the retrieval agent's in-memory cache. -/
def cacheLookup (cache : List (List Char × List Doc)) (k : List Char) :
    Option (List Doc) :=
  (cache.find? (fun p => p.1 == k)).map (fun p => p.2)

/-- Embedding of `SemanticRetrievalAgent.process` (lines 421-445).  The
`.get` calls and the join happen before the try-block, so a non-dict
structured query or a truthy non-string field raises out of the stage;
inside the try-block a failing search yields an empty document list and
leaves the cache unchanged. -/
def semanticRetrieval (b : Behavior) (cache : List (List Char × List Doc))
    (ctx : QueryContext) :
    Except PyErr (List (List Char × List Doc) × QueryContext) := do
  let sq ← match ctx.structured_query with
    | PyVal.dict d => Except.ok d
    | _ => Except.error ("object has no attribute get".data)
  let query ← buildSearchQuery sq ctx.original_query
  let fetched : Except PyErr (List (List Char × List Doc) × List Doc) :=
    match cacheLookup cache query with
    | some ds => .ok (cache, ds)
    | Option.none =>
      match b.search with
      | .ok ds => .ok (cache ++ [(query, ds)], ds)
      | .error e => .error e
  match fetched with
  | .ok p =>
    let ranked := sortDesc (fun d => score_clause_bias ctx.original_query d.page_content) p.2
    pure (p.1, { ctx with retrieved_docs := some ranked })
  | .error _ => pure (cache, { ctx with retrieved_docs := some [] })

/-- Decision dicts returned by the pure fallbacks (key order as in the
source literals). -/
def mkDecision (dec just : List Char) (amount : PyVal) (conf : Int) : PyVal :=
  .dict [("decision".data, .str dec), ("justification".data, .str just),
         ("amount".data, amount), ("confidence_score".data, .int conf)]

/-- `_normalize_decision` applied to an arbitrary runtime value: a falsy
value short-circuits to PENDING, a truthy non-string raises
`AttributeError` at `.lower()`. -/
def normalizeDecisionVal (v : PyVal) : Except PyErr (List Char) :=
  if !truthy v then .ok ("PENDING".data)
  else match v with
    | PyVal.str s => .ok (normalize_decision s)
    | _ => .error ("object has no attribute lower".data)

/-- Python `x < n` for an int right operand: ints and bools compare, other
types raise `TypeError`. -/
def pyLtInt (v : PyVal) (n : Int) : Except PyErr Bool :=
  match v with
  | .int m => .ok (decide (m < n))
  | .bool b => .ok (decide ((if b then (1 : Int) else 0) < n))
  | _ => .error ("not supported between instances".data)

/-- Python `d.get(k, dflt)` through an arbitrary receiver: raises
`AttributeError` on non-dicts. -/
def getAttr (v : PyVal) (k : List Char) (dflt : PyVal) : Except PyErr PyVal :=
  match v with
  | .dict d => .ok (dget d k dflt)
  | _ => .error ("object has no attribute get".data)

/-- Embedding of `DecisionReasoningAgent._apply_basic_rules` (lines
689-717): pure rule fallback; the duration comparison is Python `<` and
raises on a non-numeric duration, propagating out of the whole chain. -/
def apply_basic_rules (sq : PyVal) : Except PyErr PyVal :=
  match sq with
  | PyVal.dict d =>
    if !truthy (dget d ("procedure".data) .none) then
      .ok (mkDecision ("PENDING".data)
        ("Procedure type not specified. Please provide more details about the medical procedure.".data)
        .none 30)
    else
      match pyLtInt (dget d ("policy_duration_months".data) (.int 1)) 3 with
      | .error e => .error e
      | .ok true =>
        .ok (mkDecision ("PENDING".data)
          (("Policy is only ".data) ++ pyStrOfVal (dget d ("policy_duration_months".data) (.int 1)) ++
            (" month(s) old. Please check waiting period requirements.".data))
          .none 40)
      | .ok false =>
        .ok (mkDecision ("PENDING".data)
          (("Policy duration (".data) ++ pyStrOfVal (dget d ("policy_duration_months".data) (.int 1)) ++
            (" months) appears sufficient, but specific coverage details needed.".data))
          .none 60)
  | _ => .error ("object has no attribute get".data)

/-- Position matcher of the numeric tail of the waiting-period pattern:
digits, optional whitespace, "month" or "year". -/
def matchNumUnitAt (l : List Char) : Option Nat := do
  let p ← takeDigits1 l
  let _ ← dropLit ("month".data) (p.2.dropWhile isPyWs) <|>
    dropLit ("year".data) (p.2.dropWhile isPyWs)
  pure (natOfDigits p.1)

/-- Position matcher of the waiting-period pattern: "waiting", mandatory
whitespace, "period", then the non-greedy scan for the numeric tail. -/
def matchWaitingAt (l : List Char) : Option Nat := do
  let r1 ← dropLit ("waiting".data) l
  let ws := r1.takeWhile isPyWs
  if ws.isEmpty then Option.none else do
    let r2 ← dropLit ("period".data) (r1.drop ws.length)
    scanFirst matchNumUnitAt r2

/-- Greedy loop for the comma-extension part of the amount group; the
fuel is the text length, which always suffices. -/
def goGroups : Nat → List Char → List Char × List Char
  | 0, r => ([], r)
  | fuel+1, r =>
    match r with
    | ',' :: r2 =>
      let ds := r2.takeWhile Char.isDigit
      if ds.isEmpty then ([], ',' :: r2)
      else
        let q := goGroups fuel (r2.drop ds.length)
        (',' :: (ds ++ q.1), q.2)
    | r1 => ([], r1)

/-- Greedy digit group with comma-separated extensions (the captured group
of the amount patterns). -/
def takeNumGroup (l : List Char) : Option (List Char × List Char) := do
  let p ← takeDigits1 l
  let q := goGroups p.2.length p.2
  pure (p.1 ++ q.1, q.2)

/-- Non-greedy gap followed by the digit group: the first group at or
after the current position. -/
def firstNumGroup (l : List Char) : Option (List Char) :=
  scanFirst (fun r => (takeNumGroup r).map (fun p => p.1)) l

/-- Position matcher for the patterns headed by a plain literal followed
by a non-greedy gap and the amount group. -/
def matchHeadThenAmount (head : List Char) (l : List Char) : Option (List Char) := do
  let r ← dropLit head l
  firstNumGroup r

/-- Position matcher for the room-rent amount pattern ("room", mandatory
whitespace, "rent", gap, group). -/
def matchRoomRentAt (l : List Char) : Option (List Char) := do
  let r1 ← dropLit ("room".data) l
  let ws := r1.takeWhile isPyWs
  if ws.isEmpty then Option.none else do
    let r2 ← dropLit ("rent".data) (r1.drop ws.length)
    firstNumGroup r2

/-- Position matcher for the currency amount pattern: a digit group,
optional whitespace, then one of the currency markers (for existence the
optional plural "s" never matters). -/
def matchCurrencyAt (l : List Char) : Option (List Char) := do
  let p ← takeNumGroup l
  let r := p.2.dropWhile isPyWs
  if ["rs".data, "rupee".data, "₹".data, "dollar".data, "$".data,
      "euro".data, "€".data].any (fun w => w.isPrefixOf r) then
    pure p.1
  else Option.none

/-- Embedding of `_extract_policy_rules_fallback` (lines 548-586). -/
def extract_policy_rules_fallback (docs : List Doc) : PyVal :=
  let combined := List.intercalate (" ".data) (docs.map (fun d => lowerL d.page_content))
  let wp : PyVal :=
    match scanFirst matchWaitingAt combined with
    | some num =>
      .dict [("major_surgery".data, .int (num : Int)),
             ("minor_procedure".data, .int (num : Int)),
             ("preventive_care".data, .str ("not_specified".data))]
    | Option.none =>
      .dict [("major_surgery".data, .str ("not_specified".data)),
             ("minor_procedure".data, .str ("not_specified".data)),
             ("preventive_care".data, .str ("not_specified".data))]
  let amountPatterns : List ((List Char → Option (List Char)) × List Char) :=
    [(scanFirst matchRoomRentAt, "room_rent".data),
     (scanFirst (matchHeadThenAmount ("icu".data)), "icu".data),
     (scanFirst (matchHeadThenAmount ("surgery".data)), "surgery".data),
     (scanFirst (matchHeadThenAmount ("coverage".data)), "general_coverage".data),
     (scanFirst (matchHeadThenAmount ("limit".data)), "general_coverage".data),
     (scanFirst matchCurrencyAt, "general_coverage".data)]
  let coverage0 : List (List Char × PyVal) :=
    [("room_rent".data, .str ("as_per_policy".data)),
     ("icu".data, .str ("as_per_policy".data)),
     ("surgery".data, .str ("as_per_policy".data)),
     ("general_coverage".data, .str ("as_per_policy".data))]
  let coverage := amountPatterns.foldl
    (fun cov pk =>
      match pk.1 combined with
      | some group =>
        let asPer : Bool :=
          match dlookup cov pk.2 with
          | Option.none => true
          | some (PyVal.str s) => s == "as_per_policy".data
          | some _ => false
        if asPer then
          setKey cov pk.2 (.int (natOfDigits (group.filter (fun c => c != ',')) : Int))
        else cov
      | Option.none => cov)
    coverage0
  .dict [("waiting_periods".data, wp), ("coverage_limits".data, .dict coverage),
         ("exclusions".data, .list []), ("special_benefits".data, .list [])]

/-- Embedding of `_extract_policy_rules_ai` (lines 473-546): one model
call; cleaned parsed JSON on success, the regex fallback on any failure
(all its nested except-blocks converge there), so the function never
raises. -/
def extract_policy_rules_ai (b : Behavior) (n : Nat) (docs : List Doc) :
    Nat × PyVal :=
  match b.llm n with
  | .raises _ => (n + 1, extract_policy_rules_fallback docs)
  | .returns text =>
    let rules_text := stripL text
    if rules_text.isEmpty then (n + 1, extract_policy_rules_fallback docs)
    else
      let cleaned := cleanJsonL rules_text
      if (stripL cleaned).isEmpty then (n + 1, extract_policy_rules_fallback docs)
      else
        match json_loads cleaned with
        | .ok rules => (n + 1, rules)
        | .error _ => (n + 1, extract_policy_rules_fallback docs)

/-- Character class removed by the currency-cleanup re.sub in
`_process_amount_field` (single characters, including bare r and s). -/
def isCurrencyJunk (c : Char) : Bool :=
  c = '₹' || c = ',' || c = 'r' || c = 's' || isPyWs c || c = '$' || c = '€' || c = '£' || c = '¥'

/-- Coverage-limit lookup loop of `_process_amount_field`: first key whose
value differs from the "as_per_policy" marker. -/
def lookupCoverage (cov : List (List Char × PyVal)) : List (List Char) → PyVal
  | [] => .none
  | k :: rest =>
    match dlookup cov k with
    | some (PyVal.str s) =>
      if s == "as_per_policy".data then lookupCoverage cov rest else .str s
    | some v => v
    | Option.none => lookupCoverage cov rest

/-- Embedding of `_process_amount_field` (lines 660-688); total because
the whole body is wrapped in a handler returning None, and every path
through a non-dict rules value ends in None (either by falling through
the loop or via the caught `TypeError` of a string index). -/
def process_amount_field (amount : PyVal) (policy_rules : PyVal) : PyVal :=
  let fromRules : PyVal :=
    if !truthy policy_rules then .none
    else
      match policy_rules with
      | PyVal.dict pr =>
        match dlookup pr ("coverage_limits".data) with
        | some (PyVal.dict cov) =>
          lookupCoverage cov
            ["general_coverage".data, "surgery".data, "room_rent".data, "icu".data]
        | _ => .none
      | _ => .none
  let isNullStr : Bool :=
    match amount with
    | PyVal.str s => s == "null".data
    | _ => false
  let isPendingStr : Bool := lowerL (pyStrOfVal amount) == "pending".data
  if truthy amount && !isNullStr && !isPendingStr then
    match amount with
    | PyVal.str s =>
      let cleaned := s.filter (fun c => !isCurrencyJunk c)
      if !cleaned.isEmpty && cleaned.all Char.isDigit then
        .int (natOfDigits cleaned : Int)
      else fromRules
    | PyVal.int n => .int n
    | PyVal.bool b => .int (if b then 1 else 0)
    | _ => fromRules
  else fromRules

/-- Parse-and-validate phase of `_make_ai_decision` (lines 588-657): the
greedy brace span of the stripped reply is parsed, the four required keys
checked, the decision normalized, the confidence converted with `int` and
clamped into [0, 100], the amount post-processed; every failure re-raises
to the caller. -/
def aiDecisionParse (decision_text : List Char) (policy_rules : PyVal) :
    Except PyErr PyVal :=
  match suffixFrom '\x7b' decision_text with
  | Option.none => .error ("No JSON found in decision response".data)
  | some js =>
    match takeToLast '\x7d' js with
    | Option.none => .error ("No JSON found in decision response".data)
    | some span =>
      match json_loads span with
      | .error e => .error e
      | .ok v =>
        match v with
        | PyVal.dict d =>
          if ["decision".data, "justification".data, "amount".data,
              "confidence_score".data].all (fun k => hasKey d k) then
            match normalizeDecisionVal (dget d ("decision".data) .none) with
            | .error e => .error e
            | .ok norm =>
              match pyInt (dget d ("confidence_score".data) (.int 50)) with
              | .error e => .error e
              | .ok conf =>
                .ok (PyVal.dict (setKey
                  (setKey (setKey d ("decision".data) (.str norm))
                    ("confidence_score".data) (.int (min 100 (max 0 conf))))
                  ("amount".data)
                  (process_amount_field (dget d ("amount".data) .none) policy_rules)))
          else .error ("Missing required decision fields".data)
        | _ => .error ("argument is not iterable".data)

/-- Dispatch of `_make_ai_decision` on the model call, with the parse and
validation in `aiDecisionParse`. -/
def make_ai_decision (b : Behavior) (n : Nat) (policy_rules : PyVal) :
    Nat × Except PyErr PyVal :=
  match b.llm n with
  | .raises msg => (n + 1, .error msg)
  | .returns text => (n + 1, aiDecisionParse (stripL text) policy_rules)

/-- Embedding of `_make_decision_fallback` (lines 448-471): AI rule
extraction then AI decision, falling back to the basic rules if the AI
decision raises; a failure of the basic rules themselves propagates. -/
def make_decision_fallback (b : Behavior) (n : Nat) (sq : PyVal) (docs : List Doc) :
    Except PyErr (Nat × PyVal) :=
  if docs.isEmpty then
    .ok (n, mkDecision ("PENDING".data)
      ("Could not retrieve relevant policy documents. Please upload policy documents for accurate assessment.".data)
      .none 20)
  else
    match make_ai_decision b (extract_policy_rules_ai b n docs).1
        (extract_policy_rules_ai b n docs).2 with
    | (n2, .ok d) => .ok (n2, d)
    | (n2, .error _) =>
      match apply_basic_rules sq with
      | .ok d => .ok (n2, d)
      | .error e => .error e

/-- Result of Python's membership test of the decision key against each
possible parsed value: key test on dicts, substring test on strings,
element equality on lists, `TypeError` otherwise. -/
inductive InCheck where
  | yes
  | no
  | raise

/-- Membership test of `decisionReasoning` on the parsed reply. -/
def decisionInCheck : PyVal → InCheck
  | PyVal.dict d => if hasKey d ("decision".data) then .yes else .no
  | PyVal.str s => if isSubL ("decision".data) s then .yes else .no
  | PyVal.list l =>
    if l.any (fun v => match v with
        | PyVal.str s => s == "decision".data
        | _ => false) then .yes else .no
  | _ => .raise

/-- Fallback routing of `DecisionReasoningAgent.process`: the fallback's
decision is written into the context, its failure propagates. -/
def reasoningFallback (b : Behavior) (n1 : Nat) (ctx : QueryContext) (docs : List Doc) :
    Except PyErr (Nat × QueryContext) :=
  match make_decision_fallback b n1 ctx.structured_query docs with
  | .ok p => .ok (p.1, { ctx with decision := p.2 })
  | .error e => .error e

/-- Embedding of `DecisionReasoningAgent.process` (lines 764-800): with no
retrieved documents a fixed PENDING record; otherwise one model call with
clean/parse/normalize, any failure routed to `_make_decision_fallback`.
A string or list containing the decision key fails item assignment and is
routed to the fallback as well. -/
def decisionReasoning (b : Behavior) (n : Nat) (ctx : QueryContext) :
    Except PyErr (Nat × QueryContext) :=
  if (ctx.retrieved_docs.getD []).isEmpty then
    .ok (n, { ctx with
      decision := mkDecision ("PENDING".data) ("Could not retrieve relevant policy documents.".data) .none 20 })
  else
    match b.llm n with
    | .raises _ => reasoningFallback b (n + 1) ctx (ctx.retrieved_docs.getD [])
    | .returns text =>
      if (stripL text).isEmpty then reasoningFallback b (n + 1) ctx (ctx.retrieved_docs.getD [])
      else if (stripL (cleanJsonL text)).isEmpty then
        reasoningFallback b (n + 1) ctx (ctx.retrieved_docs.getD [])
      else
        match json_loads (cleanJsonL text) with
        | .error _ => reasoningFallback b (n + 1) ctx (ctx.retrieved_docs.getD [])
        | .ok v =>
          match decisionInCheck v with
          | .raise => reasoningFallback b (n + 1) ctx (ctx.retrieved_docs.getD [])
          | .no => .ok (n + 1, { ctx with decision := v })
          | .yes =>
            match v with
            | PyVal.dict d =>
              match normalizeDecisionVal (dget d ("decision".data) .none) with
              | .ok s =>
                .ok (n + 1, { ctx with
                  decision := PyVal.dict (setKey d ("decision".data) (.str s)) })
              | .error _ => reasoningFallback b (n + 1) ctx (ctx.retrieved_docs.getD [])
            | _ => reasoningFallback b (n + 1) ctx (ctx.retrieved_docs.getD [])

/-- Embedding of `ExplainabilityAgent.process` (lines 803-823); pure. -/
def explainability (ctx : QueryContext) : QueryContext :=
  let decision_text : List Char :=
    match ctx.decision with
    | PyVal.dict d =>
      if (PyVal.dict d) |> truthy then
        pyStrOfVal (dget d ("decision".data) (.str ("unknown".data)))
      else "unknown".data
    | _ => "unknown".data
  let docs := ctx.retrieved_docs.getD []
  let clause_mappings := PyVal.list ((docs.take 3).map (fun d =>
    PyVal.dict [("clause_text".data, .str (d.page_content.take 200 ++ "...".data)),
                ("source".data, dget d.metadata ("source".data) (.str ("policy_document".data)))]))
  let audit := PyVal.list [
    .str ("Extracted key entities from query.".data),
    .str (("Retrieved ".data) ++ (toString docs.length).data ++ (" relevant policy documents.".data)),
    .str (("Applied rules to make a ".data) ++ decision_text ++ (" decision.".data))]
  let expl := PyVal.dict
    [("clause_mappings".data, clause_mappings), ("audit_trail".data, audit)]
  { ctx with explanation := expl }

/-- Fields of the `DecisionResponse` dataclass that the claims concern
(processing_time is wall-clock time, outside this embedding). -/
structure DecisionResponse where
  decision : PyVal
  amount : PyVal
  justification : PyVal
  confidence_score : PyVal
  clause_mappings : PyVal
  audit_trail : PyVal

/-- Response assembly at the end of the try-block (lines 863-872): the
falsy-guarded dicts are read with `.get`, which raises on a truthy
non-dict decision. -/
def buildResponse (ctx : QueryContext) : Except PyErr DecisionResponse :=
  match (if truthy ctx.decision then ctx.decision else PyVal.dict []) with
  | PyVal.dict dd =>
    match (if truthy ctx.explanation then ctx.explanation else PyVal.dict []) with
    | PyVal.dict ed =>
      .ok { decision := dget dd ("decision".data) (.str ("ERROR".data)),
            amount := dget dd ("amount".data) .none,
            justification := dget dd ("justification".data) (.str ("An unknown error occurred.".data)),
            confidence_score := dget dd ("confidence_score".data) (.int 0),
            clause_mappings := dget ed ("clause_mappings".data) (.list []),
            audit_trail := dget ed ("audit_trail".data) (.list []) }
    | _ => .error ("object has no attribute get".data)
  | _ => .error ("object has no attribute get".data)

/-- Body of `IntelliClaimRAG.process_query`'s try-block (lines 853-874):
the four stages chained left to right, each stage's exception aborting
the chain. -/
def processQueryCore (b : Behavior) (cache : List (List Char × List Doc))
    (query : List Char) : Except PyErr DecisionResponse :=
  match semanticRetrieval b cache
      (queryUnderstanding b 0 { original_query := query }).2 with
  | .error e => .error e
  | .ok p2 =>
    match decisionReasoning b (queryUnderstanding b 0 { original_query := query }).1 p2.2 with
    | .error e => .error e
    | .ok p3 => buildResponse (explainability p3.2)

/-- Embedding of `IntelliClaimRAG.process_query` (lines 852-882) together
with its top-level exception handler. -/
def process_query (b : Behavior) (cache : List (List Char × List Doc))
    (query : List Char) : DecisionResponse :=
  match processQueryCore b cache query with
  | .ok r => r
  | .error e =>
    { decision := .str ("ERROR".data), amount := .none,
      justification := .str (("Processing failed: ".data) ++ e),
      confidence_score := .int 0, clause_mappings := .list [],
      audit_trail := .list [.str ("Error occurred during processing".data)] }

/-! Helper lemmas about the string primitives. -/

theorem isSubL_iff (n h : List Char) : isSubL n h = true ↔ n <:+: h := by
  induction h with
  | nil =>
    simp only [isSubL, List.isEmpty_iff, List.infix_nil]
  | cons c t ih =>
    simp only [isSubL, Bool.or_eq_true, List.isPrefixOf_iff_prefix, ih,
      List.infix_cons_iff]

theorem isSubL_trans {a b c : List Char} (h1 : isSubL a b = true)
    (h2 : isSubL b c = true) : isSubL a c = true := by
  rw [isSubL_iff] at h1 h2 ⊢
  exact h1.trans h2

/-- C9: for every query string, document text and window size, the
windowed excerpt returned by `build_windowed_context` has length at most
the window size and at most the length of the source document text. -/
theorem C9_windowed_excerpt_bounded (query chunk : List Char) (window : Nat) :
    (build_windowed_context query chunk window).length ≤ window ∧
    (build_windowed_context query chunk window).length ≤ chunk.length := by
  unfold build_windowed_context
  split
  · constructor
    · simp
    · simp
  · constructor
    · simp only [List.length_take, List.length_drop]
      omega
    · simp only [List.length_take, List.length_drop]
      omega

/-- Gender branch analysis: the female branch is unreachable because both
of its keywords contain a keyword of the male branch. -/
theorem extractGender_cases (ql : List Char) :
    extractGender ql = some ("male".data) ∨ extractGender ql = Option.none := by
  unfold extractGender
  split
  · exact Or.inl rfl
  · next hmale =>
    split
    · next hfem =>
      exfalso
      rw [Bool.or_eq_true] at hfem
      apply hmale
      rw [Bool.or_eq_true]
      cases hfem with
      | inl hf => exact Or.inl (isSubL_trans (by decide) hf)
      | inr hw => exact Or.inr (isSubL_trans (by decide) hw)
    · exact Or.inr rfl

/-- C10: the regex fallback entity extractor never returns gender
"female": for every input query, the gender field of the returned record
is either the string "male" or None, because the male branch fires
whenever the lower-cased query contains "male" or the single letter "m",
and both "female" and "woman" contain one of those. -/
theorem C10_fallback_gender_never_female (query : List Char) :
    ∃ d, extract_entities_fallback query = PyVal.dict d ∧
      (dlookup d ("gender".data) = some (.str ("male".data)) ∨
       dlookup d ("gender".data) = some PyVal.none) := by
  refine ⟨_, rfl, ?_⟩
  have h := extractGender_cases (lowerL query)
  unfold dlookup
  cases h with
  | inl hm => rw [hm]; left; rfl
  | inr hn => rw [hn]; right; rfl

/-- C5 counterexample: the claim maps every string containing "not
eligible" to REJECTED, but the approval branch is checked first and fires
on the contained token "eligible", so the code maps "not eligible" to
APPROVED. -/
theorem C5_counterexample :
    normalize_decision ("not eligible".data) = "APPROVED".data ∧
    normalize_decision ("not eligible".data) ≠ "REJECTED".data := by
  constructor <;> decide

/-- C5 (amended): decision normalization is total with branch priority:
any string containing an approval token (case-insensitively) maps to
APPROVED - including "not eligible", whose token "eligible" fires the
approval branch; otherwise a rejection token maps to REJECTED; everything
else, including the empty string, maps to PENDING.  The listed examples
evaluate accordingly. -/
theorem C5_normalize_decision_total (s : List Char) :
    (normalize_decision s = "APPROVED".data ∨ normalize_decision s = "REJECTED".data ∨
      normalize_decision s = "PENDING".data) ∧
    (APPROVED_WORDS.any (fun w => isSubL w (stripL (lowerL s))) = true →
      normalize_decision s = "APPROVED".data) ∧
    (APPROVED_WORDS.any (fun w => isSubL w (stripL (lowerL s))) = false →
      REJECTED_WORDS.any (fun w => isSubL w (stripL (lowerL s))) = true →
      normalize_decision s = "REJECTED".data) ∧
    (APPROVED_WORDS.any (fun w => isSubL w (stripL (lowerL s))) = false →
      REJECTED_WORDS.any (fun w => isSubL w (stripL (lowerL s))) = false →
      normalize_decision s = "PENDING".data) ∧
    normalize_decision ("Approved".data) = "APPROVED".data ∧
    normalize_decision ("claim rejected".data) = "REJECTED".data ∧
    normalize_decision ("needs further investigation".data) = "PENDING".data ∧
    normalize_decision [] = "PENDING".data ∧
    normalize_decision ("banana".data) = "PENDING".data ∧
    normalize_decision ("not eligible".data) = "APPROVED".data := by
  refine ⟨?_, ?_, ?_, ?_, by decide, by decide, by decide, by decide, by decide, by decide⟩
  · unfold normalize_decision
    split
    · exact Or.inr (Or.inr rfl)
    · split
      · exact Or.inl rfl
      · split
        · exact Or.inr (Or.inl rfl)
        · split
          · exact Or.inr (Or.inr rfl)
          · exact Or.inr (Or.inr rfl)
  · intro h
    have hs : s ≠ [] := by
      intro e
      subst e
      exact absurd h (by decide)
    simp only [normalize_decision, List.isEmpty_iff, hs, if_false, h, if_true]
  · intro ha hr
    have hs : s ≠ [] := by
      intro e
      subst e
      exact absurd hr (by decide)
    simp only [normalize_decision, List.isEmpty_iff, hs, if_false, ha, hr,
      Bool.false_eq_true, if_true]
  · intro ha hr
    by_cases hs : s = []
    · subst hs; decide
    · simp only [normalize_decision, List.isEmpty_iff, hs, if_false, ha, hr,
        Bool.false_eq_true]
      split <;> rfl

/-- C5 witness: the amended theorem applied at a concrete input. -/
theorem C5_witness : normalize_decision ("yes accept it".data) = "APPROVED".data :=
  (C5_normalize_decision_total ("yes accept it".data)).2.1 (by decide)

/-! Lemmas about `suffixFrom` and `takeToLast`. -/

theorem dropWhile_all_append {p : Char → Bool} {l1 : List Char} (l2 : List Char)
    (h : ∀ x ∈ l1, p x = true) : (l1 ++ l2).dropWhile p = l2.dropWhile p := by
  induction l1 with
  | nil => rfl
  | cons c t ih =>
    rw [List.cons_append, List.dropWhile_cons]
    rw [h c (by simp)]
    exact ih (fun x hx => h x (by simp [hx]))

theorem suffixFrom_eq (c : Char) (pre post : List Char) (hp : c ∉ pre) :
    suffixFrom c (pre ++ c :: post) = some (c :: post) := by
  induction pre with
  | nil => simp [suffixFrom]
  | cons x t ih =>
    have hx : ¬x = c := fun e => hp (by simp [e])
    simp only [List.cons_append, suffixFrom, if_neg hx]
    exact ih (fun hm => hp (by simp [hm]))

theorem suffixFrom_head (c : Char) (l s : List Char)
    (h : suffixFrom c l = some s) : ∃ rest, s = c :: rest := by
  induction l with
  | nil => cases h
  | cons x t ih =>
    by_cases hx : x = c
    · simp only [suffixFrom, if_pos hx] at h
      exact ⟨t, by rw [← Option.some_inj.mp h, hx]⟩
    · simp only [suffixFrom, if_neg hx] at h
      exact ih h

theorem takeToLast_eq (c : Char) (mid tail : List Char) (ht : c ∉ tail) :
    takeToLast c (mid ++ c :: tail) = some (mid ++ [c]) := by
  unfold takeToLast
  have hrev : (mid ++ c :: tail).reverse = tail.reverse ++ c :: mid.reverse := by
    simp
  rw [hrev, dropWhile_all_append _ (fun x hx => by
    simp only [bne_iff_ne, ne_eq]
    intro e
    exact ht (by rw [← e]; exact List.mem_reverse.mp hx))]
  rw [List.dropWhile_cons]
  simp

theorem takeToLast_none (c : Char) (l : List Char) (h : c ∉ l) :
    takeToLast c l = Option.none := by
  unfold takeToLast
  have : l.reverse.dropWhile (fun x => x != c) = [] := by
    rw [List.dropWhile_eq_nil_iff]
    intro x hx
    simp only [bne_iff_ne, ne_eq]
    intro e
    exact h (by rw [← e]; exact List.mem_reverse.mp hx)
  rw [this]

theorem takeToLast_shape (c : Char) (l s : List Char)
    (h : takeToLast c l = some s) : ∃ front, s = front ++ [c] := by
  unfold takeToLast at h
  cases hd : l.reverse.dropWhile (fun x => x != c) with
  | nil => rw [hd] at h; cases h
  | cons d u =>
    rw [hd] at h
    have hdc : d = c := by
      have h0 := List.head?_dropWhile_not (fun x => x != c) l.reverse
      rw [hd] at h0
      simpa using h0
    refine ⟨u.reverse, ?_⟩
    rw [← Option.some_inj.mp h, hdc]
    simp

theorem takeToLast_isPrefix (c : Char) (l s : List Char)
    (h : takeToLast c l = some s) : s <+: l := by
  unfold takeToLast at h
  cases hd : l.reverse.dropWhile (fun x => x != c) with
  | nil => rw [hd] at h; cases h
  | cons d u =>
    rw [hd] at h
    have hsuf : (d :: u) <:+ l.reverse := by
      rw [← hd]; exact List.dropWhile_suffix _
    obtain ⟨pre, hpre⟩ := hsuf
    refine ⟨pre.reverse, ?_⟩
    rw [← Option.some_inj.mp h]
    have : l = (pre ++ d :: u).reverse := by rw [hpre]; simp
    rw [this]
    simp

theorem exists_last_decomp (c : Char) (l : List Char) (h : c ∈ l) :
    ∃ mid tail, l = mid ++ c :: tail ∧ c ∉ tail := by
  induction l with
  | nil => cases h
  | cons x t ih =>
    by_cases hc : c ∈ t
    · obtain ⟨mid, tail, heq, htail⟩ := ih hc
      exact ⟨x :: mid, tail, by simp [heq], htail⟩
    · have hx : x = c := by
        cases h with
        | head => rfl
        | tail _ hm => exact absurd hm hc
      exact ⟨[], t, by simp [hx], hc⟩

/-- C6 (amended): after fence stripping, when the text contains an opening
brace then: if a closing brace follows it, the greedy span from the first
opening to the last closing brace is returned; if no closing brace
follows, the whole fence-stripped text is returned unchanged (not merely
its suffix starting at the opening brace, which the original claim
asserted). -/
theorem C6_clean_json_brace (l pre post : List Char)
    (hs : stripL l ≠ [])
    (ht : fenceStrip l = pre ++ '\x7b' :: post)
    (hpre : '\x7b' ∉ pre) :
    ('\x7d' ∉ post → cleanJsonL l = fenceStrip l) ∧
    (∀ mid tail, post = mid ++ '\x7d' :: tail → '\x7d' ∉ tail →
      cleanJsonL l = ('\x7b' :: mid) ++ ['\x7d']) := by
  have hclean : cleanJsonL l = braceExtract (fenceStrip l) := by
    unfold cleanJsonL
    rw [if_neg hs]
  constructor
  · intro hnp
    rw [hclean, ht]
    unfold braceExtract
    rw [suffixFrom_eq _ _ _ hpre]
    dsimp only
    have hnin : '\x7d' ∉ ('\x7b' :: post) := by
      simp only [List.mem_cons]
      rintro (h | h)
      · exact absurd h (by decide)
      · exact hnp h
    rw [takeToLast_none _ _ hnin]
  · intro mid tail hdec htail
    rw [hclean, ht]
    unfold braceExtract
    rw [suffixFrom_eq _ _ _ hpre]
    have hjs : ('\x7b' :: post) = ('\x7b' :: mid) ++ '\x7d' :: tail := by
      simp [hdec]
    rw [hjs]
    dsimp only
    rw [takeToLast_eq _ _ _ htail]

/-- C6 witness: the amended theorem at a concrete input with both a
closing brace present and, through the first conjunct on another input,
absent. -/
theorem C6_witness :
    cleanJsonL ("x\x7bab\x7dy".data) = "\x7bab\x7d".data := by
  have h := (C6_clean_json_brace ("x\x7bab\x7dy".data) ("x".data) ("ab\x7dy".data)
    (by decide) (by decide) (by decide)).2 ("ab".data) ("y".data) (by decide) (by decide)
  exact h

/-- C6 counterexample: on "abc" followed by an opening brace and "def"
(no closing brace anywhere), clean_json_response returns the whole text,
while the claim asserts it returns the suffix starting at the brace. -/
theorem C6_counterexample :
    cleanJsonL ("abc\x7bdef".data) = "abc\x7bdef".data ∧
    cleanJsonL ("abc\x7bdef".data) ≠ "\x7bdef".data := by
  constructor <;> decide

/-! Strip-normalization lemmas for the idempotence analysis. -/

theorem head?_dropWhile' {p : Char → Bool} (l : List Char) (a : Char)
    (h : (l.dropWhile p).head? = some a) : p a = false := by
  have h0 := List.head?_dropWhile_not p l
  rw [h] at h0
  simpa using h0

theorem stripL_eq_self (l : List Char)
    (h1 : ∀ a, l.head? = some a → isPyWs a = false)
    (h2 : ∀ b, l.getLast? = some b → isPyWs b = false) : stripL l = l := by
  cases l with
  | nil => rfl
  | cons c t =>
    unfold stripL
    rw [List.dropWhile_cons, h1 c rfl]
    simp only [Bool.false_eq_true, if_false]
    cases hr : (c :: t).reverse with
    | nil => exact absurd hr (by simp)
    | cons d u =>
      have hd : (c :: t).getLast? = some d := by
        rw [← List.head?_reverse, hr]; rfl
      rw [List.dropWhile_cons, h2 d hd]
      simp only [Bool.false_eq_true, if_false]
      rw [← hr, List.reverse_reverse]

theorem stripL_ends (l : List Char) :
    (∀ a, (stripL l).head? = some a → isPyWs a = false) ∧
    (∀ b, (stripL l).getLast? = some b → isPyWs b = false) := by
  unfold stripL
  constructor
  · intro a ha
    rw [List.head?_reverse] at ha
    obtain ⟨pre, hpre⟩ :=
      List.dropWhile_suffix (l := (l.dropWhile isPyWs).reverse) (p := isPyWs)
    have hA : ((l.dropWhile isPyWs).reverse).getLast? = some a := by
      rw [← hpre, List.getLast?_append, ha]
      rfl
    rw [List.getLast?_reverse] at hA
    exact head?_dropWhile' _ _ hA
  · intro b hb
    rw [List.getLast?_reverse] at hb
    exact head?_dropWhile' _ _ hb

theorem stripL_idem (l : List Char) : stripL (stripL l) = stripL l :=
  stripL_eq_self _ (stripL_ends l).1 (stripL_ends l).2

theorem fenceStrip_stripped (l : List Char) :
    stripL (fenceStrip l) = fenceStrip l := by
  unfold fenceStrip
  exact stripL_idem _

theorem fenceStrip_of_fixed (t : List Char) (hstrip : stripL t = t)
    (hp : ("```json".data).isPrefixOf t = false)
    (hsuf : ("```".data).isSuffixOf t = false) : fenceStrip t = t := by
  unfold fenceStrip dropJsonFence dropTicksEnd
  rw [hstrip, hp]
  simp only [Bool.false_eq_true, if_false]
  rw [hsuf]
  simp only [Bool.false_eq_true, if_false]
  exact hstrip

theorem braceExtract_shape (t : List Char) :
    braceExtract t = t ∨ ∃ mid, braceExtract t = ('\x7b' :: mid) ++ ['\x7d'] := by
  unfold braceExtract
  cases hsf : suffixFrom '\x7b' t with
  | none => exact Or.inl rfl
  | some js =>
    dsimp only
    cases htl : takeToLast '\x7d' js with
    | none => exact Or.inl rfl
    | some span =>
      dsimp only
      right
      obtain ⟨rest, hjs⟩ := suffixFrom_head _ _ _ hsf
      obtain ⟨front, hspan⟩ := takeToLast_shape _ _ _ htl
      obtain ⟨suf, hsuf⟩ := takeToLast_isPrefix _ _ _ htl
      cases front with
      | nil =>
        exfalso
        rw [hspan] at hsuf
        rw [hjs] at hsuf
        simp only [List.nil_append, List.cons_append, List.cons.injEq] at hsuf
        exact absurd hsuf.1 (by decide)
      | cons f0 f1 =>
        rw [hspan, hjs] at hsuf
        have hf0 : f0 = '\x7b' := by
          have hh := congrArg List.head? hsuf
          simpa using hh
        exact ⟨f1, by rw [hspan, hf0]⟩

theorem isPrefixOf_fence_brace (mid : List Char) :
    ("```json".data).isPrefixOf (('\x7b' :: mid) ++ ['\x7d']) = false := by
  simp [List.isPrefixOf]

theorem isSuffixOf_ticks_brace (mid : List Char) :
    ("```".data).isSuffixOf (('\x7b' :: mid) ++ ['\x7d']) = false := by
  simp [List.isSuffixOf, List.isPrefixOf]

/-- C7 (amended): clean_json_response is idempotent on every text whose
cleaned form does not itself start with a "```json" marker or end with a
"```" marker (one fence layer is removed per pass, so a doubly fenced
text - which contains no complete JSON object - cleans differently on the
second pass; for all other inputs, in particular any text whose cleaned
form is a brace-delimited span, cleaning twice equals cleaning once). -/
theorem C7_clean_json_idempotent (l : List Char)
    (h1 : ("```json".data).isPrefixOf (cleanJsonL l) = false)
    (h2 : ("```".data).isSuffixOf (cleanJsonL l) = false) :
    cleanJsonL (cleanJsonL l) = cleanJsonL l := by
  by_cases hs : stripL l = []
  · have he : cleanJsonL l = l := by unfold cleanJsonL; rw [if_pos hs]
    rw [he]
    unfold cleanJsonL
    rw [if_pos hs]
  · have he : cleanJsonL l = braceExtract (fenceStrip l) := by
      unfold cleanJsonL; rw [if_neg hs]
    cases braceExtract_shape (fenceStrip l) with
    | inl hb =>
      have hcl : cleanJsonL l = fenceStrip l := he.trans hb
      rw [hcl]
      by_cases ht0 : fenceStrip l = []
      · rw [ht0]
        rfl
      · have hstr : stripL (fenceStrip l) = fenceStrip l := fenceStrip_stripped l
        unfold cleanJsonL
        rw [if_neg (by rw [hstr]; exact ht0)]
        rw [fenceStrip_of_fixed _ hstr (by rw [← hcl]; exact h1) (by rw [← hcl]; exact h2)]
        exact hb
    | inr hex =>
      obtain ⟨mid, hbm⟩ := hex
      have hcl : cleanJsonL l = ('\x7b' :: mid) ++ ['\x7d'] := he.trans hbm
      rw [hcl]
      have hspanstrip : stripL (('\x7b' :: mid) ++ ['\x7d']) = ('\x7b' :: mid) ++ ['\x7d'] := by
        apply stripL_eq_self
        · intro a ha
          simp only [List.cons_append, List.head?_cons, Option.some_inj] at ha
          rw [← ha]
          decide
        · intro b hbq
          rw [List.getLast?_concat] at hbq
          rw [← Option.some_inj.mp hbq]
          decide
      unfold cleanJsonL
      rw [if_neg (by rw [hspanstrip]; simp)]
      rw [fenceStrip_of_fixed _ hspanstrip (isPrefixOf_fence_brace mid) (isSuffixOf_ticks_brace mid)]
      unfold braceExtract
      have hsf : suffixFrom '\x7b' (('\x7b' :: mid) ++ ['\x7d']) =
          some (('\x7b' :: mid) ++ ['\x7d']) := by
        simp [suffixFrom, List.cons_append]
      rw [hsf]
      dsimp only
      have hjs2 : ('\x7b' :: mid) ++ ['\x7d'] = ('\x7b' :: mid) ++ '\x7d' :: ([] : List Char) := rfl
      rw [hjs2, takeToLast_eq '\x7d' ('\x7b' :: mid) [] (by simp)]

/-- C7 witness: the amended theorem at a concrete input. -/
theorem C7_witness :
    cleanJsonL (cleanJsonL (" \x7bk: 1\x7d ".data)) = cleanJsonL (" \x7bk: 1\x7d ".data) :=
  C7_clean_json_idempotent (" \x7bk: 1\x7d ".data) (by decide) (by decide)

/-- C7 counterexample: a doubly fenced text with no brace at all (hence
containing at most one top-level JSON object) on which cleaning is not
idempotent: the first pass strips one fence layer, the second strips
another. -/
theorem C7_counterexample :
    cleanJsonL (cleanJsonL ("```json```json abc".data)) ≠
      cleanJsonL ("```json```json abc".data) := by
  decide

/-! Lemmas for the retrieval search string. -/

theorem intercalate_concat (sep w : List Char) (xs : List (List Char)) :
    ∃ p, List.intercalate sep (xs ++ [w]) = p ++ w := by
  induction xs with
  | nil => exact ⟨[], by simp [List.intercalate]⟩
  | cons x t ih =>
    obtain ⟨p, hp⟩ := ih
    cases ht : t ++ [w] with
    | nil => exact absurd ht (by simp)
    | cons y u =>
      refine ⟨x ++ sep ++ p, ?_⟩
      rw [List.cons_append, ht]
      rw [show List.intercalate sep (x :: y :: u) =
        x ++ sep ++ List.intercalate sep (y :: u) from by
          simp [List.intercalate, List.intersperse]]
      rw [← ht, hp]
      simp

theorem dropWhile_ws_wp_rev :
    List.dropWhile isPyWs (("waiting period".data).reverse) =
      ("waiting period".data).reverse := by decide

theorem stripL_ends_wp (p : List Char) :
    ∃ q, stripL (p ++ "waiting period".data) = q ++ "waiting period".data := by
  unfold stripL
  rw [List.dropWhile_append]
  by_cases h : (List.dropWhile isPyWs p).isEmpty
  · rw [if_pos h]
    exact ⟨[], by decide⟩
  · rw [if_neg h]
    refine ⟨List.dropWhile isPyWs p, ?_⟩
    rw [List.reverse_append, List.dropWhile_append, dropWhile_ws_wp_rev]
    rw [if_neg (by decide)]
    simp

/-- Conversion step of the join: extracting the strings of a list that
ends in a fixed string value either fails or yields a list ending in that
string. -/
theorem toStrList_concat (w : List Char) (front : List PyVal) :
    (∃ e, toStrList (front ++ [PyVal.str w]) = .error e) ∨
    (∃ fs, toStrList (front ++ [PyVal.str w]) = .ok (fs ++ [w])) := by
  induction front with
  | nil => exact Or.inr ⟨[], rfl⟩
  | cons v t ih =>
    rw [List.cons_append]
    cases v with
    | str s =>
      cases ih with
      | inl he =>
        obtain ⟨e, he⟩ := he
        exact Or.inl ⟨e, by simp [toStrList, he]⟩
      | inr hok =>
        obtain ⟨fs, hok⟩ := hok
        exact Or.inr ⟨s :: fs, by simp [toStrList, hok]⟩
    | none => exact Or.inl ⟨_, rfl⟩
    | bool b => exact Or.inl ⟨_, rfl⟩
    | int n => exact Or.inl ⟨_, rfl⟩
    | list l => exact Or.inl ⟨_, rfl⟩
    | dict d => exact Or.inl ⟨_, rfl⟩

/-- C8 (amended): the retrieval search string is built from procedure,
intent, location (in that order, truthy values only) followed by the
constant hint "waiting period" - not "insurance policy coverage" as the
claim states - so every successfully built search string is nonempty and
ends with the hint; in particular the join is never empty and the
original-query fallback branch never fires.  A truthy non-string field
raises TypeError instead. -/
theorem C8_search_query_shape (sq : List (List Char × PyVal)) (original : List Char) :
    (∃ e, buildSearchQuery sq original = .error e) ∨
    (∃ s, buildSearchQuery sq original = .ok s ∧ s ≠ [] ∧
      ∃ p, s = p ++ "waiting period".data) := by
  unfold buildSearchQuery joinSearchParts
  have hf : List.filter truthy
      [dget sq ("procedure".data) .none, dget sq ("intent".data) .none,
        dget sq ("location".data) .none, PyVal.str ("waiting period".data)] =
      List.filter truthy [dget sq ("procedure".data) .none,
        dget sq ("intent".data) .none, dget sq ("location".data) .none] ++
        [PyVal.str ("waiting period".data)] := by
    rw [show [dget sq ("procedure".data) .none, dget sq ("intent".data) .none,
        dget sq ("location".data) .none, PyVal.str ("waiting period".data)] =
      [dget sq ("procedure".data) .none, dget sq ("intent".data) .none,
        dget sq ("location".data) .none] ++ [PyVal.str ("waiting period".data)] from rfl]
    rw [List.filter_append]
    rfl
  rw [hf]
  cases toStrList_concat ("waiting period".data)
      (List.filter truthy [dget sq ("procedure".data) .none,
        dget sq ("intent".data) .none, dget sq ("location".data) .none]) with
  | inl he =>
    obtain ⟨e, he⟩ := he
    left
    refine ⟨e, ?_⟩
    rw [he]
  | inr hok =>
    obtain ⟨fs, hok⟩ := hok
    right
    obtain ⟨p, hp⟩ := intercalate_concat (" ".data) ("waiting period".data) fs
    obtain ⟨q, hq⟩ := stripL_ends_wp p
    refine ⟨q ++ "waiting period".data, ?_, by simp, q, rfl⟩
    rw [hok]
    dsimp only
    rw [hp, hq]
    have hne : ((q ++ "waiting period".data).isEmpty) = false := by
      cases q <;> simp [List.isEmpty]
    simp only [hne, Bool.false_eq_true, if_false]

/-- C8 counterexample: on a structured query with procedure "surgery",
location "Pune" and intent "claim_eligibility", the code's search string
is "surgery claim_eligibility Pune waiting period" (procedure, intent,
location, constant hint), not the claimed
"surgery Pune claim_eligibility insurance policy coverage". -/
theorem C8_counterexample :
    buildSearchQuery
      [("procedure".data, PyVal.str ("surgery".data)),
       ("location".data, PyVal.str ("Pune".data)),
       ("intent".data, PyVal.str ("claim_eligibility".data))] ("orig".data)
      = .ok ("surgery claim_eligibility Pune waiting period".data) ∧
    buildSearchQuery
      [("procedure".data, PyVal.str ("surgery".data)),
       ("location".data, PyVal.str ("Pune".data)),
       ("intent".data, PyVal.str ("claim_eligibility".data))] ("orig".data)
      ≠ .ok ("surgery Pune claim_eligibility insurance policy coverage".data) := by
  constructor
  · rfl
  · intro h
    have := Except.ok.inj h
    exact absurd this (by decide)

/-- A model call the client treats as failed: the call raised, or its
content strips to empty. -/
def llmFailed : LLMResult → Bool
  | .raises _ => true
  | .returns t => (stripL t).isEmpty

/-- Concrete behaviour of the claim's scenario: the primary call raises,
every later call returns "Hello". -/
def bHello : Nat → LLMResult :=
  fun n => if n = 0 then .raises ("boom".data) else .returns ("Hello".data)

theorem tryFallbackModels_spec (b : Nat → LLMResult) :
    ∀ (models : List (List Char)) (n : Nat),
      (∃ k, k ≤ models.length ∧
        (tryFallbackModels b n models).2 = models.take k) ∧
      (∀ s, (tryFallbackModels b n models).1 = some s →
        b (n + (tryFallbackModels b n models).2.length - 1) = .returns s ∧
        (stripL s).isEmpty = false ∧
        ∀ j, j + 1 < (tryFallbackModels b n models).2.length →
          llmFailed (b (n + j)) = true) ∧
      ((tryFallbackModels b n models).1 = Option.none →
        (tryFallbackModels b n models).2 = models ∧
        ∀ j, j < models.length → llmFailed (b (n + j)) = true) := by
  intro models
  induction models with
  | nil =>
    intro n
    refine ⟨⟨0, by simp, rfl⟩, ?_, ?_⟩
    · intro s hs
      exact absurd hs (by simp [tryFallbackModels])
    · intro _
      exact ⟨rfl, fun j hj => absurd hj (by simp)⟩
  | cons m rest ih =>
    intro n
    unfold tryFallbackModels
    cases hb : b n with
    | returns t =>
      dsimp only
      by_cases hne : (stripL t).isEmpty = false
      · rw [if_pos (by simp [hne])]
        refine ⟨⟨1, by simp, by simp⟩, ?_, ?_⟩
        · intro s hs
          have hst : t = s := by simpa using hs
          subst hst
          refine ⟨by simpa using hb, hne, ?_⟩
          intro j hj
          exfalso
          simp at hj
        · intro hs
          exact absurd hs (by simp)
      · rw [if_neg (by simpa using hne)]
        have hfail : llmFailed (b n) = true := by
          rw [hb]
          unfold llmFailed
          simpa using hne
        obtain ⟨⟨k, hk, htake⟩, hsome, hnone⟩ := ih (n + 1)
        refine ⟨⟨k + 1, by simpa using hk, by simp [htake]⟩, ?_, ?_⟩
        · intro s hs
          obtain ⟨h1, h2, h3⟩ := hsome s hs
          refine ⟨by rw [show n + (m :: (tryFallbackModels b (n+1) rest).2).length - 1 =
            (n + 1) + (tryFallbackModels b (n+1) rest).2.length - 1 from by
              simp only [List.length_cons]; omega]; exact h1,
            h2, ?_⟩
          intro j hj
          cases j with
          | zero => exact hfail
          | succ j' =>
            rw [show n + (j' + 1) = (n + 1) + j' from by omega]
            exact h3 j' (by simpa using hj)
        · intro hs
          obtain ⟨h1, h2⟩ := hnone hs
          refine ⟨by simp [h1], ?_⟩
          intro j hj
          cases j with
          | zero => exact hfail
          | succ j' =>
            rw [show n + (j' + 1) = (n + 1) + j' from by omega]
            exact h2 j' (by simpa using hj)
    | raises msg =>
      dsimp only
      have hfail : llmFailed (b n) = true := by rw [hb]; rfl
      obtain ⟨⟨k, hk, htake⟩, hsome, hnone⟩ := ih (n + 1)
      refine ⟨⟨k + 1, by simpa using hk, by simp [htake]⟩, ?_, ?_⟩
      · intro s hs
        obtain ⟨h1, h2, h3⟩ := hsome s hs
        refine ⟨by rw [show n + (m :: (tryFallbackModels b (n+1) rest).2).length - 1 =
          (n + 1) + (tryFallbackModels b (n+1) rest).2.length - 1 from by
            simp only [List.length_cons]; omega]; exact h1,
          h2, ?_⟩
        intro j hj
        cases j with
        | zero => exact hfail
        | succ j' =>
          rw [show n + (j' + 1) = (n + 1) + j' from by omega]
          exact h3 j' (by simpa using hj)
      · intro hs
        obtain ⟨h1, h2⟩ := hnone hs
        refine ⟨by simp [h1], ?_⟩
        intro j hj
        cases j with
        | zero => exact hfail
        | succ j' =>
          rw [show n + (j' + 1) = (n + 1) + j' from by omega]
          exact h2 j' (by simpa using hj)

/-- Packaged behaviour of `generate_content_async` for any behaviour. -/
theorem generate_content_async_spec (b : Nat → LLMResult) :
    (∃ k, k ≤ FALLBACK_MODELS.length ∧
      (generate_content_async b).2 = PRIMARY_MODEL :: FALLBACK_MODELS.take k) ∧
    (∀ s, (generate_content_async b).1 = some s →
      b ((generate_content_async b).2.length - 1) = .returns s ∧
      (stripL s).isEmpty = false ∧
      ∀ j, j + 1 < (generate_content_async b).2.length → llmFailed (b j) = true) ∧
    ((generate_content_async b).1 = Option.none →
      (generate_content_async b).2 = PRIMARY_MODEL :: FALLBACK_MODELS ∧
      ∀ j, j < 1 + FALLBACK_MODELS.length → llmFailed (b j) = true) := by
  have hspec := tryFallbackModels_spec b FALLBACK_MODELS 1
  unfold generate_content_async
  cases hb : b 0 with
  | returns t =>
    dsimp only
    by_cases hne : (stripL t).isEmpty = false
    · rw [if_pos (by simp [hne])]
      refine ⟨⟨0, by simp, rfl⟩, ?_, ?_⟩
      · intro s hs
        have hst : t = s := by simpa using hs
        subst hst
        refine ⟨by simpa using hb, hne, ?_⟩
        intro j hj
        exfalso
        simp at hj
      · intro hs
        exact absurd hs (by simp)
    · rw [if_neg (by simpa using hne)]
      have hfail : llmFailed (b 0) = true := by
        rw [hb]; unfold llmFailed; simpa using hne
      obtain ⟨⟨k, hk, htake⟩, hsome, hnone⟩ := hspec
      refine ⟨⟨k, hk, by simp [htake]⟩, ?_, ?_⟩
      · intro s hs
        obtain ⟨h1, h2, h3⟩ := hsome s (by simpa using hs)
        refine ⟨?_, h2, ?_⟩
        · rw [show (PRIMARY_MODEL :: (tryFallbackModels b 1 FALLBACK_MODELS).2).length - 1 =
            1 + (tryFallbackModels b 1 FALLBACK_MODELS).2.length - 1 from by
              simp only [List.length_cons]; omega]
          exact h1
        · intro j hj
          cases j with
          | zero => exact hfail
          | succ j' =>
            rw [show j' + 1 = 1 + j' from by omega]
            apply h3
            simp only [List.length_cons] at hj
            omega
      · intro hs
        obtain ⟨h1, h2⟩ := hnone (by simpa using hs)
        refine ⟨by simp [h1], ?_⟩
        intro j hj
        cases j with
        | zero => exact hfail
        | succ j' =>
          rw [show j' + 1 = 1 + j' from by omega]
          apply h2
          omega
  | raises msg =>
    dsimp only
    have hfail : llmFailed (b 0) = true := by rw [hb]; rfl
    obtain ⟨⟨k, hk, htake⟩, hsome, hnone⟩ := hspec
    refine ⟨⟨k, hk, by simp [htake]⟩, ?_, ?_⟩
    · intro s hs
      obtain ⟨h1, h2, h3⟩ := hsome s (by simpa using hs)
      refine ⟨?_, h2, ?_⟩
      · rw [show (PRIMARY_MODEL :: (tryFallbackModels b 1 FALLBACK_MODELS).2).length - 1 =
          1 + (tryFallbackModels b 1 FALLBACK_MODELS).2.length - 1 from by
            simp only [List.length_cons]; omega]
        exact h1
      · intro j hj
        cases j with
        | zero => exact hfail
        | succ j' =>
          rw [show j' + 1 = 1 + j' from by omega]
          apply h3
          simp only [List.length_cons] at hj
          omega
    · intro hs
      obtain ⟨h1, h2⟩ := hnone (by simpa using hs)
      refine ⟨by simp [h1], ?_⟩
      intro j hj
      cases j with
      | zero => exact hfail
      | succ j' =>
        rw [show j' + 1 = 1 + j' from by omega]
        apply h2
        omega

/-- C3: the client calls the primary model at most once (the call log is
the primary followed by a prefix of the fallback list, each model tried
at most once, in order); a returned value is the first non-empty content,
every earlier call having failed (raised or stripped empty), so later
fallbacks are never called; the overall failure arises only when the
primary and all four fallbacks have failed.  In the concrete scenario
where the primary raises and the first fallback returns "Hello", the
result is "Hello" with only two models called. -/
theorem C3_generate_content_fallback_chain (b : Nat → LLMResult) :
    ((∃ k, k ≤ FALLBACK_MODELS.length ∧
      (generate_content_async b).2 = PRIMARY_MODEL :: FALLBACK_MODELS.take k) ∧
    (∀ s, (generate_content_async b).1 = some s →
      b ((generate_content_async b).2.length - 1) = .returns s ∧
      (stripL s).isEmpty = false ∧
      ∀ j, j + 1 < (generate_content_async b).2.length → llmFailed (b j) = true) ∧
    ((generate_content_async b).1 = Option.none →
      (generate_content_async b).2 = PRIMARY_MODEL :: FALLBACK_MODELS ∧
      ∀ j, j < 1 + FALLBACK_MODELS.length → llmFailed (b j) = true)) ∧
    generate_content_async bHello =
      (some ("Hello".data), [PRIMARY_MODEL, "openai/gpt-5-2025-08-07".data]) :=
  ⟨generate_content_async_spec b, by decide⟩

/-- C3 witness: the fallback-chain theorem applied at the concrete
scenario behaviour. -/
theorem C3_witness :
    bHello ((generate_content_async bHello).2.length - 1) = .returns ("Hello".data) ∧
    (stripL ("Hello".data)).isEmpty = false ∧
    ∀ j, j + 1 < (generate_content_async bHello).2.length → llmFailed (bHello j) = true :=
  (C3_generate_content_fallback_chain bHello).1.2.1 ("Hello".data) (by decide)

/-! Lemmas for the batch Q&A orchestrator. -/

theorem batchAttemptOutcome_ok_length (b : Nat → LLMResult) (len attempt : Nat)
    (l : List PyVal) (h : batchAttemptOutcome b len attempt = .ok l) :
    l.length = len := by
  unfold batchAttemptOutcome at h
  cases hb : b attempt with
  | raises msg => rw [hb] at h; exact Except.noConfusion h
  | returns text =>
    rw [hb] at h
    dsimp only at h
    cases hp : parseBatchAnswers text with
    | error msg => rw [hp] at h; exact Except.noConfusion h
    | ok v =>
      rw [hp] at h
      dsimp only at h
      cases v with
      | list l2 =>
        dsimp only at h
        split at h
        · next hlen => rw [← Except.ok.inj h]; exact hlen
        · exact Except.noConfusion h
      | none => exact Except.noConfusion h
      | bool b2 => exact Except.noConfusion h
      | int n => exact Except.noConfusion h
      | str s => exact Except.noConfusion h
      | dict d => exact Except.noConfusion h

theorem batchRetryLoop_length (b : Nat → LLMResult) (len : Nat) :
    ∀ (fuel attempt : Nat), (batchRetryLoop b len attempt fuel).length = len := by
  intro fuel
  induction fuel with
  | zero => intro attempt; simp [batchRetryLoop]
  | succ f ih =>
    intro attempt
    unfold batchRetryLoop
    cases h : batchAttemptOutcome b len attempt with
    | ok l => exact batchAttemptOutcome_ok_length b len attempt l h
    | error msg =>
      dsimp only
      split
      · exact ih (attempt + 1)
      · simp

theorem chunkFuel_flatten {α : Type} (m : Nat) :
    ∀ (fuel : Nat) (l : List α), l.length ≤ fuel → (chunkFuel m fuel l).flatten = l := by
  intro fuel
  induction fuel with
  | zero =>
    intro l hl
    cases l with
    | nil => rfl
    | cons c t => exact absurd hl (by simp)
  | succ f ih =>
    intro l hl
    cases l with
    | nil => rfl
    | cons c t =>
      rw [chunkFuel, List.flatten_cons]
      rw [ih (t.drop m) (by simp only [List.length_drop]; simp at hl; omega)]
      simp [List.take_append_drop]

theorem chunkBy_flatten {α : Type} (m : Nat) (l : List α) :
    (chunkBy m l).flatten = l :=
  chunkFuel_flatten m l.length l (le_refl _)

/-- C2 (code bug): the claimed batch contract fails on the code.  An
empty question list does yield an empty result, but for every nonempty
question list and every model behaviour the orchestrator raises the
retrieval prelude's TypeError (the `type(...)`-built helper binds its
plain functions as methods, so `retriever.dynamic_k(doc_length)` gets the
instance as an extra positional argument) before any model call; the only
handler catches asyncio.TimeoutError, and `asyncio.gather` propagates the
exception, so no list of answers is returned at all. -/
theorem C2_batch_qa_raises (bs : Nat → Nat → LLMResult)
    (questions : List (List Char)) :
    (questions = [] → answerAll bs questions = .ok []) ∧
    (questions ≠ [] →
      answerAll bs questions =
        .error ("dynamic_k() takes 1 positional argument but 2 were given".data)) := by
  constructor
  · intro h
    subst h
    rfl
  · intro h
    cases questions with
    | nil => exact absurd rfl h
    | cons q t =>
      show answerBatches bs 0 (chunkFuel 4 (q :: t).length (q :: t)) = _
      rw [List.length_cons]
      rfl

/-- C2 witness: at the concrete one-question input the orchestrator
raises the prelude's TypeError, whatever the model would have said. -/
theorem C2_raises_witness :
    answerAll (fun _ _ => LLMResult.returns ("ok".data)) ["q".data] =
      .error ("dynamic_k() takes 1 positional argument but 2 were given".data) :=
  (C2_batch_qa_raises (fun _ _ => LLMResult.returns ("ok".data)) ["q".data]).2
    (by decide)

/-! Lemmas for the decision pipeline. -/

/-- Canonical decision strings of the reasoning agents. -/
def threeDecisions (s : List Char) : Prop :=
  s = "APPROVED".data ∨ s = "REJECTED".data ∨ s = "PENDING".data

/-- The four possible response decisions. -/
def fourDecisions (v : PyVal) : Prop :=
  v = .str ("APPROVED".data) ∨ v = .str ("REJECTED".data) ∨
  v = .str ("PENDING".data) ∨ v = .str ("ERROR".data)

/-- A pipeline value from which the response assembly can only read a
canonical decision: if it is a dict with a decision entry, that entry is
one of the three agent decisions. -/
def goodDecision (v : PyVal) : Prop :=
  ∀ dd, v = PyVal.dict dd → ∀ w, dlookup dd ("decision".data) = some w →
    ∃ s, w = PyVal.str s ∧ threeDecisions s

theorem normalize_decision_mem (s : List Char) :
    threeDecisions (normalize_decision s) := by
  unfold normalize_decision threeDecisions
  split
  · exact Or.inr (Or.inr rfl)
  · split
    · exact Or.inl rfl
    · split
      · exact Or.inr (Or.inl rfl)
      · split
        · exact Or.inr (Or.inr rfl)
        · exact Or.inr (Or.inr rfl)

theorem normalizeDecisionVal_mem (v : PyVal) (s : List Char)
    (h : normalizeDecisionVal v = .ok s) : threeDecisions s := by
  unfold normalizeDecisionVal at h
  split at h
  · exact Or.inr (Or.inr (Except.ok.inj h).symm)
  · cases v with
    | str s2 =>
      dsimp only at h
      rw [← Except.ok.inj h]
      exact normalize_decision_mem s2
    | none => exact Except.noConfusion h
    | bool b => exact Except.noConfusion h
    | int n => exact Except.noConfusion h
    | list l => exact Except.noConfusion h
    | dict d => exact Except.noConfusion h

theorem dlookup_setKey_self (d : List (List Char × PyVal)) (k : List Char) (v : PyVal) :
    dlookup (setKey d k v) k = some v := by
  induction d with
  | nil => simp [setKey, dlookup]
  | cons p t ih =>
    obtain ⟨k1, v1⟩ := p
    unfold setKey
    by_cases h : k1 = k
    · rw [if_pos h]
      unfold dlookup
      rw [if_pos h]
    · rw [if_neg h]
      unfold dlookup
      rw [if_neg h]
      exact ih

theorem dlookup_setKey_ne (d : List (List Char × PyVal)) (k k' : List Char)
    (v : PyVal) (h : k' ≠ k) : dlookup (setKey d k v) k' = dlookup d k' := by
  induction d with
  | nil =>
    unfold setKey dlookup
    rw [if_neg (fun e => h e.symm)]
    rfl
  | cons p t ih =>
    obtain ⟨k1, v1⟩ := p
    unfold setKey
    by_cases hk : k1 = k
    · rw [if_pos hk]
      unfold dlookup
      by_cases hk2 : k1 = k'
      · exact absurd (hk2.symm.trans hk) h
      · rw [if_neg hk2, if_neg hk2]
    · rw [if_neg hk]
      unfold dlookup
      by_cases hk2 : k1 = k'
      · rw [if_pos hk2, if_pos hk2]
      · rw [if_neg hk2, if_neg hk2]
        exact ih

theorem goodDecision_mkDecision (dec just : List Char) (amt : PyVal) (conf : Int)
    (hdec : threeDecisions dec) : goodDecision (mkDecision dec just amt conf) := by
  intro dd heq w hw
  unfold mkDecision at heq
  injection heq with h2
  rw [← h2] at hw
  unfold dlookup at hw
  rw [if_pos rfl] at hw
  exact ⟨dec, (Option.some.inj hw).symm, hdec⟩

theorem aiDecisionParse_ok (t : List Char) (rules : PyVal) (d : PyVal)
    (h : aiDecisionParse t rules = .ok d) :
    goodDecision d ∧ ∃ dd c, d = PyVal.dict dd ∧
      dlookup dd ("confidence_score".data) = some (.int c) ∧ 0 ≤ c ∧ c ≤ 100 := by
  unfold aiDecisionParse at h
  cases hsf : suffixFrom '\x7b' t with
  | none => rw [hsf] at h; exact Except.noConfusion h
  | some js =>
    rw [hsf] at h
    dsimp only at h
    cases htl : takeToLast '\x7d' js with
    | none => rw [htl] at h; exact Except.noConfusion h
    | some span =>
      rw [htl] at h
      dsimp only at h
      cases hj : json_loads span with
      | error e => rw [hj] at h; exact Except.noConfusion h
      | ok v =>
        rw [hj] at h
        dsimp only at h
        cases v with
        | dict d0 =>
          dsimp only at h
          split at h
          · cases hn : normalizeDecisionVal (dget d0 ("decision".data) .none) with
            | error e => rw [hn] at h; exact Except.noConfusion h
            | ok norm =>
              rw [hn] at h
              dsimp only at h
              cases hc : pyInt (dget d0 ("confidence_score".data) (.int 50)) with
              | error e => rw [hc] at h; exact Except.noConfusion h
              | ok conf =>
                rw [hc] at h
                dsimp only at h
                rw [← Except.ok.inj h]
                constructor
                · intro dd heq w hw
                  injection heq with h2
                  rw [← h2] at hw
                  rw [dlookup_setKey_ne _ _ _ _ (by decide)] at hw
                  rw [dlookup_setKey_ne _ _ _ _ (by decide)] at hw
                  rw [dlookup_setKey_self] at hw
                  exact ⟨norm, (Option.some.inj hw).symm,
                    normalizeDecisionVal_mem _ _ hn⟩
                · refine ⟨_, min 100 (max 0 conf), rfl, ?_, ?_, ?_⟩
                  · rw [dlookup_setKey_ne _ _ _ _ (by decide)]
                    rw [dlookup_setKey_self]
                  · exact le_min (by norm_num) (le_max_left 0 conf)
                  · exact min_le_left _ _
          · exact Except.noConfusion h
        | none => exact Except.noConfusion h
        | bool b2 => exact Except.noConfusion h
        | int n2 => exact Except.noConfusion h
        | str s2 => exact Except.noConfusion h
        | list l2 => exact Except.noConfusion h

theorem make_ai_decision_ok (b : Behavior) (n : Nat) (rules : PyVal)
    (n2 : Nat) (d : PyVal) (h : make_ai_decision b n rules = (n2, .ok d)) :
    goodDecision d ∧ ∃ dd c, d = PyVal.dict dd ∧
      dlookup dd ("confidence_score".data) = some (.int c) ∧ 0 ≤ c ∧ c ≤ 100 := by
  unfold make_ai_decision at h
  cases hb : b.llm n with
  | raises msg =>
    rw [hb] at h
    dsimp only at h
    exact Except.noConfusion (Prod.mk.injEq _ _ _ _ ▸ h |> And.right)
  | returns text =>
    rw [hb] at h
    dsimp only at h
    have h2 : aiDecisionParse (stripL text) rules = .ok d := by
      have := (Prod.mk.injEq _ _ _ _ ▸ h : n + 1 = n2 ∧ _)
      exact this.2
    exact aiDecisionParse_ok _ _ _ h2

theorem apply_basic_rules_good (sq d : PyVal) (h : apply_basic_rules sq = .ok d) :
    goodDecision d := by
  unfold apply_basic_rules at h
  cases sq with
  | dict d0 =>
    dsimp only at h
    split at h
    · rw [← Except.ok.inj h]
      exact goodDecision_mkDecision _ _ _ _ (Or.inr (Or.inr rfl))
    · split at h
      · exact Except.noConfusion h
      · rw [← Except.ok.inj h]
        exact goodDecision_mkDecision _ _ _ _ (Or.inr (Or.inr rfl))
      · rw [← Except.ok.inj h]
        exact goodDecision_mkDecision _ _ _ _ (Or.inr (Or.inr rfl))
  | none => exact Except.noConfusion h
  | bool b2 => exact Except.noConfusion h
  | int n2 => exact Except.noConfusion h
  | str s2 => exact Except.noConfusion h
  | list l2 => exact Except.noConfusion h

theorem make_decision_fallback_good (b : Behavior) (n : Nat) (sq : PyVal)
    (docs : List Doc) (n2 : Nat) (d : PyVal)
    (h : make_decision_fallback b n sq docs = .ok (n2, d)) : goodDecision d := by
  unfold make_decision_fallback at h
  split at h
  · have h2 := Except.ok.inj h
    have hd : d = mkDecision ("PENDING".data)
        ("Could not retrieve relevant policy documents. Please upload policy documents for accurate assessment.".data)
        .none 20 := by
      have := (Prod.mk.injEq _ _ _ _ ▸ h2 : n = n2 ∧ _)
      exact this.2.symm
    rw [hd]
    exact goodDecision_mkDecision _ _ _ _ (Or.inr (Or.inr rfl))
  · cases hm : make_ai_decision b (extract_policy_rules_ai b n docs).1
        (extract_policy_rules_ai b n docs).2 with
    | mk n3 r =>
      rw [hm] at h
      cases r with
      | ok d2 =>
        dsimp only at h
        have h2 := Except.ok.inj h
        have hd : d = d2 := by
          have := (Prod.mk.injEq _ _ _ _ ▸ h2 : n3 = n2 ∧ _)
          exact this.2.symm
        rw [hd]
        exact (make_ai_decision_ok b _ _ n3 d2 hm).1
      | error e2 =>
        dsimp only at h
        cases hb : apply_basic_rules sq with
        | ok d3 =>
          rw [hb] at h
          dsimp only at h
          have h2 := Except.ok.inj h
          have hd : d = d3 := by
            have := (Prod.mk.injEq _ _ _ _ ▸ h2 : n3 = n2 ∧ _)
            exact this.2.symm
          rw [hd]
          exact apply_basic_rules_good sq d3 hb
        | error e3 =>
          rw [hb] at h
          exact Except.noConfusion h

theorem reasoningFallback_good (b : Behavior) (n1 : Nat) (ctx : QueryContext)
    (docs : List Doc) (n2 : Nat) (ctx2 : QueryContext)
    (h : reasoningFallback b n1 ctx docs = .ok (n2, ctx2)) :
    goodDecision ctx2.decision := by
  unfold reasoningFallback at h
  cases hm : make_decision_fallback b n1 ctx.structured_query docs with
  | ok p =>
    rw [hm] at h
    dsimp only at h
    have h2 := Except.ok.inj h
    have hd : ctx2 = { ctx with decision := p.2 } := by
      have := (Prod.mk.injEq _ _ _ _ ▸ h2 : p.1 = n2 ∧ _)
      exact this.2.symm
    rw [hd]
    exact make_decision_fallback_good b n1 ctx.structured_query docs p.1 p.2 hm
  | error e =>
    rw [hm] at h
    exact Except.noConfusion h

theorem decisionInCheck_no_good (v : PyVal) (h : decisionInCheck v = .no) :
    goodDecision v := by
  intro dd heq w hw
  subst heq
  unfold decisionInCheck at h
  dsimp only at h
  split at h
  · exact InCheck.noConfusion h
  · next hk =>
    have hkt : hasKey dd ("decision".data) = true := by
      unfold hasKey
      rw [hw]
      rfl
    exact absurd hkt hk

theorem decisionReasoning_good (b : Behavior) (n : Nat) (ctx : QueryContext)
    (n2 : Nat) (ctx2 : QueryContext)
    (h : decisionReasoning b n ctx = .ok (n2, ctx2)) :
    goodDecision ctx2.decision := by
  unfold decisionReasoning at h
  split at h
  · have h2 := Except.ok.inj h
    have hd : ctx2 = { ctx with
        decision := mkDecision ("PENDING".data)
          ("Could not retrieve relevant policy documents.".data) .none 20 } := by
      have := (Prod.mk.injEq _ _ _ _ ▸ h2 : n = n2 ∧ _)
      exact this.2.symm
    rw [hd]
    exact goodDecision_mkDecision _ _ _ _ (Or.inr (Or.inr rfl))
  · cases hb : b.llm n with
    | raises msg =>
      rw [hb] at h
      exact reasoningFallback_good _ _ _ _ _ _ h
    | returns text =>
      rw [hb] at h
      dsimp only at h
      split at h
      · exact reasoningFallback_good _ _ _ _ _ _ h
      · split at h
        · exact reasoningFallback_good _ _ _ _ _ _ h
        · cases hj : json_loads (cleanJsonL text) with
          | error e =>
            rw [hj] at h
            exact reasoningFallback_good _ _ _ _ _ _ h
          | ok v =>
            rw [hj] at h
            dsimp only at h
            cases hic : decisionInCheck v with
            | raise =>
              rw [hic] at h
              exact reasoningFallback_good _ _ _ _ _ _ h
            | no =>
              rw [hic] at h
              dsimp only at h
              have h2 := Except.ok.inj h
              have hd : ctx2 = { ctx with decision := v } := by
                have := (Prod.mk.injEq _ _ _ _ ▸ h2 : n + 1 = n2 ∧ _)
                exact this.2.symm
              rw [hd]
              exact decisionInCheck_no_good v hic
            | yes =>
              rw [hic] at h
              dsimp only at h
              cases v with
              | dict d0 =>
                dsimp only at h
                cases hn : normalizeDecisionVal (dget d0 ("decision".data) .none) with
                | ok s =>
                  rw [hn] at h
                  dsimp only at h
                  have h2 := Except.ok.inj h
                  have hd : ctx2 = { ctx with
                      decision := PyVal.dict (setKey d0 ("decision".data) (.str s)) } := by
                    have := (Prod.mk.injEq _ _ _ _ ▸ h2 : n + 1 = n2 ∧ _)
                    exact this.2.symm
                  rw [hd]
                  intro dd heq w hw
                  injection heq with h3
                  rw [← h3] at hw
                  rw [dlookup_setKey_self] at hw
                  exact ⟨s, (Option.some.inj hw).symm,
                    normalizeDecisionVal_mem _ _ hn⟩
                | error e =>
                  rw [hn] at h
                  exact reasoningFallback_good _ _ _ _ _ _ h
              | none => exact reasoningFallback_good _ _ _ _ _ _ h
              | bool b2 => exact reasoningFallback_good _ _ _ _ _ _ h
              | int n3 => exact reasoningFallback_good _ _ _ _ _ _ h
              | str s2 => exact reasoningFallback_good _ _ _ _ _ _ h
              | list l2 => exact reasoningFallback_good _ _ _ _ _ _ h

theorem buildResponse_ok_decision (ctx : QueryContext) (r : DecisionResponse)
    (h : buildResponse ctx = .ok r) (hg : goodDecision ctx.decision) :
    fourDecisions r.decision := by
  unfold buildResponse at h
  split at h
  · next dd heqd =>
    split at h
    · next ed heqe =>
      rw [← Except.ok.inj h]
      dsimp only
      cases hl : dlookup dd ("decision".data) with
      | none =>
        unfold dget
        rw [hl]
        exact Or.inr (Or.inr (Or.inr rfl))
      | some w =>
        unfold dget
        rw [hl]
        dsimp only [Option.getD]
        by_cases ht : truthy ctx.decision
        · rw [if_pos ht] at heqd
          obtain ⟨s, hws, hs3⟩ := hg dd heqd w hl
          rw [hws]
          cases hs3 with
          | inl h1 => exact Or.inl (by rw [h1])
          | inr h2 =>
            cases h2 with
            | inl h3 => exact Or.inr (Or.inl (by rw [h3]))
            | inr h4 => exact Or.inr (Or.inr (Or.inl (by rw [h4])))
        · rw [if_neg ht] at heqd
          injection heqd with h5
          rw [← h5] at hl
          exact Option.noConfusion hl
    · exact Except.noConfusion h
  · exact Except.noConfusion h

theorem processQueryCore_ok_decision (b : Behavior)
    (cache : List (List Char × List Doc)) (q : List Char) (r : DecisionResponse)
    (h : processQueryCore b cache q = .ok r) : fourDecisions r.decision := by
  unfold processQueryCore at h
  cases hr : semanticRetrieval b cache
      (queryUnderstanding b 0 { original_query := q }).2 with
  | error e => rw [hr] at h; exact Except.noConfusion h
  | ok p2 =>
    rw [hr] at h
    dsimp only at h
    cases hd : decisionReasoning b (queryUnderstanding b 0 { original_query := q }).1 p2.2 with
    | error e => rw [hd] at h; exact Except.noConfusion h
    | ok p3 =>
      rw [hd] at h
      dsimp only at h
      refine buildResponse_ok_decision _ _ h ?_
      have hexp : (explainability p3.2).decision = p3.2.decision := rfl
      rw [hexp]
      exact decisionReasoning_good b _ p2.2 p3.1 p3.2 hd

/-- Every run of the pipeline produces one of the four decisions. -/
theorem process_query_four (b : Behavior) (cache : List (List Char × List Doc))
    (q : List Char) : fourDecisions (process_query b cache q).decision := by
  unfold process_query
  cases hc : processQueryCore b cache q with
  | ok r =>
    dsimp only
    exact processQueryCore_ok_decision b cache q r hc
  | error e =>
    dsimp only
    exact Or.inr (Or.inr (Or.inr rfl))

/-- C1: for every query, cache state and external behaviour, the decision
field of the response is present and canonical (one of APPROVED,
REJECTED, PENDING, ERROR - in particular never null); and whenever the
four-stage chain raises, the top-level handler returns a response with
decision "ERROR", confidence_score 0 and a justification containing the
exception text, rather than raising (process_query is total by
construction of the handler). -/
theorem C1_process_query_error_handling (b : Behavior)
    (cache : List (List Char × List Doc)) (q : List Char) :
    fourDecisions (process_query b cache q).decision ∧
    (∀ e, processQueryCore b cache q = .error e →
      (process_query b cache q).decision = .str ("ERROR".data) ∧
      (process_query b cache q).confidence_score = .int 0 ∧
      ∃ j, (process_query b cache q).justification = .str j ∧ isSubL e j = true) := by
  refine ⟨process_query_four b cache q, ?_⟩
  intro e he
  unfold process_query
  rw [he]
  refine ⟨rfl, rfl, ("Processing failed: ".data) ++ e, rfl, ?_⟩
  rw [isSubL_iff]
  exact (List.suffix_append _ _).isInfix

/-- Behaviour of the C1 witness: the understanding reply parses to the
number 5, so the retrieval stage's attribute access raises. -/
def bErr : Behavior := { llm := fun _ => .returns ("5".data), search := .ok [] }

/-- C1 witness: the error-handling theorem at a concrete failing run. -/
theorem C1_witness :
    (process_query bErr [] ("q".data)).decision = .str ("ERROR".data) ∧
    (process_query bErr [] ("q".data)).confidence_score = .int 0 ∧
    ∃ j, (process_query bErr [] ("q".data)).justification = .str j ∧
      isSubL ("object has no attribute get".data) j = true :=
  (C1_process_query_error_handling bErr [] ("q".data)).2
    ("object has no attribute get".data) rfl

/-- C4 (amended): the decision field of every response is one of
APPROVED, REJECTED, PENDING, ERROR; the confidence_score is an integer
clamped into [0, 100] on the `_make_ai_decision` fallback path, but in
the main reasoning path the model-provided confidence_score is passed
through to the response unvalidated (see the counterexample). -/
theorem C4_decision_set_and_confidence (b : Behavior)
    (cache : List (List Char × List Doc)) (q : List Char) :
    fourDecisions (process_query b cache q).decision ∧
    (∀ (n : Nat) (rules : PyVal) (n2 : Nat) (d : PyVal),
      make_ai_decision b n rules = (n2, .ok d) →
      ∃ dd c, d = PyVal.dict dd ∧
        dlookup dd ("confidence_score".data) = some (.int c) ∧ 0 ≤ c ∧ c ≤ 100) :=
  ⟨process_query_four b cache q,
   fun n rules n2 d h => (make_ai_decision_ok b n rules n2 d h).2⟩

/-- Document of the C4 counterexample run. -/
def docWP : Doc :=
  { page_content := "waiting period".data,
    metadata := [("source".data, PyVal.str ("p.pdf".data))] }

/-- Behaviour of the C4 counterexample: understanding falls back to the
regex extractor, the retriever returns one document, and the main
decision reply carries an out-of-range confidence of 150. -/
def bConf150 : Behavior :=
  { llm := fun n => if n = 0 then .raises ("timeout".data)
      else .returns ("\x7b\"decision\": \"approved\", \"justification\": \"ok\", \"amount\": null, \"confidence_score\": 150\x7d".data),
    search := .ok [docWP] }

/-- C4 counterexample: in the main reasoning path the model's
confidence_score of 150 reaches the response unchanged, violating the
claimed [0, 100] bound. -/
theorem C4_counterexample :
    (process_query bConf150 [] ("knee surgery".data)).confidence_score = PyVal.int 150 ∧
    ¬∃ c : Int, (process_query bConf150 [] ("knee surgery".data)).confidence_score =
      PyVal.int c ∧ 0 ≤ c ∧ c ≤ 100 := by
  constructor
  · rfl
  · rintro ⟨c, hc, h0, h100⟩
    rw [show (process_query bConf150 [] ("knee surgery".data)).confidence_score =
      PyVal.int 150 from rfl] at hc
    have h150 := PyVal.int.inj hc
    omega

/-- Behaviour of the C4 witness: a decision reply with confidence 250,
clamped to 100 by the AI-decision fallback path. -/
def bConf250 : Behavior :=
  { llm := fun _ => .returns ("\x7b\"decision\": \"ok\", \"justification\": \"j\", \"amount\": null, \"confidence_score\": 250\x7d".data),
    search := .ok [] }

/-- C4 witness: the clamp conjunct applied at a concrete AI decision. -/
theorem C4_witness :
    ∃ dd c,
      PyVal.dict [("decision".data, PyVal.str ("PENDING".data)),
        ("justification".data, PyVal.str ("j".data)),
        ("amount".data, PyVal.none),
        ("confidence_score".data, PyVal.int 100)] = PyVal.dict dd ∧
      dlookup dd ("confidence_score".data) = some (PyVal.int c) ∧ 0 ≤ c ∧ c ≤ 100 :=
  (C4_decision_set_and_confidence bConf250 [] ("q".data)).2 0 PyVal.none 1
    (PyVal.dict [("decision".data, PyVal.str ("PENDING".data)),
      ("justification".data, PyVal.str ("j".data)),
      ("amount".data, PyVal.none),
      ("confidence_score".data, PyVal.int 100)]) rfl

end IntelliClaim
